import Mathlib

/-!
# Verification development for `user_app.cpp`

A shallow embedding of the tasks of
`09_FactoryProgram/components/user_app/user_app.cpp`:

* `display_image_from_sdcard` (lines 104-143),
* `example_scan_wifi_ble_task` (lines 172-200),
* `example_button_task` (lines 201-258),
* `example_user_task` (lines 298-342).

Machine integers are natural numbers reduced modulo `2 ^ w` where the source
variable has width `w`.  Character buffers hold the C string they contain (the
characters before the terminating NUL) as a `List Char`.  Every call that leaves
the task (LVGL, logging, storage, radio, RTOS) is recorded, in program order, in a
list of `Call`s that the embedded function returns next to the new state; what
the outside world answers (event bits, file existence, read-back contents, queue
outcomes, sensor samples) is an explicit input.
-/

namespace UserApp

/-! ## Machine arithmetic, bit helpers, formatting -/

/-- Modulus of `uint8_t`. -/
def U8 : Nat := 2 ^ 8

/-- Modulus of `uint32_t`. -/
def U32 : Nat := 2 ^ 32

/-- Unsigned 32-bit subtraction `a - b` of two `uint32_t` values. -/
def sub32 (a b : Nat) : Nat := (a + U32 - b % U32) % U32

/-- Modelled from the spec: the `READ_BIT(value, n)` helper comes from a header that is
not part of the sources; the spec calls it a test of "a single flag in a shared
bitmask".  The result is non-zero exactly when flag `n` of `x` is raised. -/
def READ_BIT (x n : Nat) : Nat := (x >>> n) &&& 1

/-- Modelled from the spec: the `SET_BIT(value, n)` helper comes from a header that is
not part of the sources; it raises flag `n` of the bitmask. -/
def SET_BIT (x n : Nat) : Nat := x ||| (1 <<< n)

/-- Clearing the flags of `mask` in `g`, the `g &= ~mask` of the event group. -/
def clearBits (g mask : Nat) : Nat := g ^^^ (g &&& mask)

/-- Modelled from the spec: the RTOS wait primitive `xEventGroupWaitBits` is a service
outside the sources.  `group` is the value of the event group at the moment the
call returns (the waited-for flags arrived, or the timeout expired).  The call
returns that value; when the wait condition is met and `clearOnExit` is asked
for, "each bit is cleared atomically by whichever wait operation consumes it".
The result is the pair (returned value, event group afterwards). -/
def xEventGroupWaitBits (group mask : Nat) (clearOnExit waitForAll : Bool) : Nat × Nat :=
  let met : Bool := if waitForAll then group &&& mask == mask else group &&& mask != 0
  if met && clearOnExit then (group, clearBits group mask) else (group, group)

/-- Decimal digits of a natural number, most significant first; `fuel` bounds the
number of digits produced. -/
def decimal_core : Nat → Nat → List Char
  | 0, _ => []
  | fuel + 1, n =>
    if n < 10 then [Nat.digitChar n]
    else decimal_core fuel (n / 10) ++ [Nat.digitChar (n % 10)]

/-- Decimal rendering of a natural number (`%u`). -/
def decimal (n : Nat) : List Char := decimal_core (n + 1) n

/-- Decimal rendering of a signed integer: the `%d` / `%ld` conversion. -/
def fmt_d (z : Int) : List Char :=
  if z < 0 then '-' :: decimal z.natAbs else decimal z.natAbs

/-- The `%02d` conversion: `%d` padded with a zero to two characters. -/
def fmt_02d (z : Int) : List Char :=
  if (fmt_d z).length < 2 then '0' :: fmt_d z else fmt_d z

/-- The value a 32-bit `long` takes when it is handed the bits of a `uint32_t`. -/
def toInt32 (c : Nat) : Int :=
  if c % U32 < 2 ^ 31 then ((c % U32 : Nat) : Int) else ((c % U32 : Nat) : Int) - (U32 : Int)

/-- The `%ld` conversion applied to a `uint32_t` argument (`long` is 32 bits wide on
the target, so the argument is read as a signed value). -/
def fmt_ld (c : Nat) : List Char := fmt_d (toInt32 c)

/-- The C string left in the buffer by `snprintf(buf, size, ...)` when the complete
formatted text is `text`: at most `size - 1` characters are kept. -/
def snprintf (size : Nat) (text : List Char) : List Char := text.take (size - 1)

/-! ## Observable calls -/

/-- Text labels of the user interface written by the tasks. -/
inductive Label
  | screen_label_4
  | screen_label_5
  | screen_label_6
  | screen_label_7
  | screen_label_8
  deriving DecidableEq, Repr

/-- The two backlight duty modes passed to `setUpduty`. -/
inductive LcdPwmMode
  | LCD_PWM_MODE_0
  | LCD_PWM_MODE_255
  deriving DecidableEq, Repr

/-- Calls leaving the tasks, recorded in program order. -/
inductive Call
  | ESP_LOGI (tag : String) (msg : List Char)
  | ESP_LOGE (tag : String) (msg : List Char)
  | display_image_from_sdcard (path : List Char)
  | lv_obj_create (obj : Nat)
  | lv_obj_set_size (obj : Nat)
  | lv_obj_align (obj : Nat)
  | lv_obj_set_style_bg_color (obj : Nat)
  | lv_obj_set_style_border_width (obj : Nat)
  | lv_obj_set_style_pad_all (obj : Nat)
  | lv_obj_clean (obj : Nat)
  | lv_img_create (parent obj : Nat)
  | lv_img_set_src (obj : Nat) (src : List Char)
  | lv_obj_clear_flag (obj : Nat)
  | lv_obj_move_foreground (obj : Nat)
  | setUpduty (mode : LcdPwmMode)
  | sdcard_file_write (path : String) (data : List Char)
  | sdcard_file_read (path : String)
  | lv_label_set_text (label : Label) (text : List Char)
  | espwifi_init
  | espwifi_deinit
  | ble_scan_prepare
  | ble_stack_init
  | ble_scan_start
  | xQueueReceive (got : Bool)
  | vTaskDelay (ms : Nat)
  | ble_stack_deinit
  | vTaskDelete
  | i2c_rtc_get
  | i2c_imu_get
  | adc_get_value
  deriving DecidableEq

/-- Log tag of the image display code. -/
def TAG_IMG : String := "ImageDisplay"

/-! ## `display_image_from_sdcard` -/

/-- The display objects the image code owns: the cached container `img_container`
(`none` is `NULL`), the image objects currently inside that container with their
source, and the number of objects created so far (also the next fresh handle). -/
structure Display where
  img_container : Option Nat
  images : List (Nat × List Char)
  allocated : Nat
  deriving DecidableEq

/-- No container yet: `static lv_obj_t *img_container = NULL`. -/
def Display.init : Display := ⟨none, [], 0⟩

/-- Second half of `display_image_from_sdcard` (lines 127-142), run once the
container `c` is at hand: create the image object, set its source, show it. -/
def display_image_finish (d : Display) (c : Nat) (path : List Char) : Display × List Call :=
  let img := d.allocated
  let lvgl_path := snprintf 64 ("S:".toList ++ path)
  ({ d with images := d.images ++ [(img, lvgl_path)], allocated := d.allocated + 1 },
   [Call.lv_img_create c img,
    Call.lv_img_set_src img lvgl_path,
    Call.lv_obj_align img,
    Call.lv_obj_clear_flag c,
    Call.lv_obj_move_foreground c,
    Call.ESP_LOGI TAG_IMG "Image display created successfully".toList])

/-- The function `display_image_from_sdcard(path)`; `stat_ok` tells whether
`stat(path, &st)` returned 0. -/
def display_image_from_sdcard (d : Display) (path : List Char) (stat_ok : Bool) :
    Display × List Call :=
  let attempt := Call.ESP_LOGI TAG_IMG ("Attempting to display image from: ".toList ++ path)
  if !stat_ok then
    (d, [attempt, Call.ESP_LOGE TAG_IMG ("Image file not found: ".toList ++ path)])
  else
    match d.img_container with
    | none =>
      let c := d.allocated
      let r := display_image_finish
        { img_container := some c, images := [], allocated := d.allocated + 1 } c path
      (r.1, [attempt, Call.lv_obj_create c, Call.lv_obj_set_size c, Call.lv_obj_align c,
             Call.lv_obj_set_style_bg_color c, Call.lv_obj_set_style_border_width c,
             Call.lv_obj_set_style_pad_all c] ++ r.2)
    | some c =>
      let r := display_image_finish { d with images := [] } c path
      (r.1, [attempt, Call.lv_obj_clean c] ++ r.2)

/-! ## `example_button_task` -/

/-- Local variables of `example_button_task` that live across loop iterations,
together with the display objects reached through `display_image_from_sdcard`. -/
structure ButtonState where
  bl_test : Nat
  sdcard_test : Nat
  sdcard_send_buf : List Char
  sdcard_read_buf : List Char
  disp : Display

/-- Initial values of the locals (lines 204-208). -/
def ButtonState.init : ButtonState :=
  { bl_test := 255, sdcard_test := 0, sdcard_send_buf := [], sdcard_read_buf := [],
    disp := Display.init }

/-- What the outside world answers during one loop iteration: the value returned by
the wait, whether the image file exists, and what `sdcard_file_read` leaves in the
read buffer given the text just written (`none`: the buffer is left untouched). -/
structure CycleIn where
  even : Nat
  file_exists : Bool
  sdcard_read : List Char → Option (List Char)

/-- The mask built at lines 209-212. -/
def even_set_bit : Nat := SET_BIT (SET_BIT (SET_BIT 0 0) 1) 5

/-- Fixed text of the self-test pattern, the format string before `%ld`. -/
def sd_pattern_head : List Char := "China is the greatest country : ".toList

/-- The text `snprintf(sdcard_send_buf, 50, "China is the greatest country : %ld", n)`
leaves in the buffer. -/
def sd_pattern (n : Nat) : List Char := snprintf 50 (sd_pattern_head ++ fmt_ld n)

/-- Status text of a passed self-test (line 246). -/
def sd_pass : List Char := "sd Test Pass".toList

/-- Status text of a failed self-test (line 250). -/
def sd_fail : List Char := "sd Test Fail".toList

/-- The fixed image path handed to `display_image_from_sdcard` (line 219). -/
def img_path : List Char := "/sdcard/1.jpg".toList

/-- Body of the `for(;;)` loop of `example_button_task` after the wait returned
`i.even` (lines 216-256). -/
def button_cycle (s : ButtonState) (i : CycleIn) : ButtonState × List Call :=
  if READ_BIT i.even 0 ≠ 0 then
    let r := display_image_from_sdcard s.disp img_path i.file_exists
    ({ s with disp := r.1 },
     [Call.ESP_LOGI TAG_IMG "Button single-click detected, displaying image".toList,
      Call.display_image_from_sdcard img_path] ++ r.2)
  else if READ_BIT i.even 1 ≠ 0 then
    if s.bl_test = 255 then
      ({ s with bl_test := 0 }, [Call.setUpduty LcdPwmMode.LCD_PWM_MODE_0])
    else if s.bl_test = 0 then
      ({ s with bl_test := 255 }, [Call.setUpduty LcdPwmMode.LCD_PWM_MODE_255])
    else (s, [])
  else if READ_BIT i.even 5 ≠ 0 then
    let n := (s.sdcard_test + 1) % U32
    let sent := sd_pattern n
    let got := match i.sdcard_read sent with
      | none => s.sdcard_read_buf
      | some r => r
    let s1 := { s with sdcard_test := n, sdcard_send_buf := sent, sdcard_read_buf := got }
    if sent = got then
      (s1, [Call.sdcard_file_write "/sdcard/Test.txt" sent,
            Call.sdcard_file_read "/sdcard/Test.txt",
            Call.ESP_LOGI "sdcardTest" "sd card Test pass".toList,
            Call.lv_label_set_text Label.screen_label_6 sd_pass])
    else
      (s1, [Call.sdcard_file_write "/sdcard/Test.txt" sent,
            Call.sdcard_file_read "/sdcard/Test.txt",
            Call.lv_label_set_text Label.screen_label_6 sd_fail])
  else
    (s, [Call.lv_label_set_text Label.screen_label_6 []])

/-- The loop of `example_button_task` run over the successive answers of the
outside world: final state and all calls made, in order. -/
def button_run (s : ButtonState) : List CycleIn → ButtonState × List Call
  | [] => (s, [])
  | i :: rest =>
    let r := button_cycle s i
    let q := button_run r.1 rest
    (q.1, r.2 ++ q.2)

/-- The task together with the event group `key_groups` it waits on. -/
structure ButtonTask where
  key_groups : Nat
  st : ButtonState

/-- Answers of the outside world for one full iteration including the wait:
`pressed` are the flags the button driver raised before the wait returned. -/
structure IterIn where
  pressed : Nat
  file_exists : Bool
  sdcard_read : List Char → Option (List Char)

/-- One full iteration of the loop (lines 215-256): the wait on `key_groups` with
clear-on-exit over `even_set_bit`, any flag sufficing, then the dispatch. -/
def button_task_iter (t : ButtonTask) (i : IterIn) : ButtonTask × List Call :=
  let w := xEventGroupWaitBits (t.key_groups ||| i.pressed) even_set_bit true false
  let r := button_cycle t.st ⟨w.1, i.file_exists, i.sdcard_read⟩
  (⟨w.2, r.1⟩, r.2)

/-- The single-click handler ran: `display_image_from_sdcard` was called. -/
def ran_single (cs : List Call) : Bool :=
  cs.any fun c => match c with
    | Call.display_image_from_sdcard _ => true
    | _ => false

/-- The double-click handler ran: the backlight duty was set. -/
def ran_double (cs : List Call) : Bool :=
  cs.any fun c => match c with
    | Call.setUpduty _ => true
    | _ => false

/-- The long-press self-test ran: the test file was written. -/
def ran_long (cs : List Call) : Bool :=
  cs.any fun c => match c with
    | Call.sdcard_file_write _ _ => true
    | _ => false

/-- The idle branch ran: the status label was blanked. -/
def ran_idle (cs : List Call) : Bool :=
  cs.any fun c => decide (c = Call.lv_label_set_text Label.screen_label_6 [])

/-- The returned event value selects the double-click branch. -/
def is_double (even : Nat) : Bool := !even.testBit 0 && even.testBit 1

/-- Number of double-click cycles in a history. -/
def double_clicks (hist : List CycleIn) : Nat := (hist.filter fun i => is_double i.even).length

/-- The duty modes handed to `setUpduty`, in order. -/
def duty_calls : List Call → List LcdPwmMode
  | [] => []
  | Call.setUpduty m :: cs => m :: duty_calls cs
  | _ :: cs => duty_calls cs

/-- Duty 0 at the odd double-clicks, duty 255 at the even ones: the modes of the
first `n` double-clicks (position `j` holds double-click number `j + 1`). -/
def expected_duties (n : Nat) : List LcdPwmMode :=
  (List.range n).map fun j =>
    if j % 2 = 0 then LcdPwmMode.LCD_PWM_MODE_0 else LcdPwmMode.LCD_PWM_MODE_255

/-- Calls into the display library that create, clean or change a display object. -/
def is_lvgl : Call → Bool
  | Call.lv_obj_create _ => true
  | Call.lv_obj_set_size _ => true
  | Call.lv_obj_align _ => true
  | Call.lv_obj_set_style_bg_color _ => true
  | Call.lv_obj_set_style_border_width _ => true
  | Call.lv_obj_set_style_pad_all _ => true
  | Call.lv_obj_clean _ => true
  | Call.lv_img_create _ _ => true
  | Call.lv_img_set_src _ _ => true
  | Call.lv_obj_clear_flag _ => true
  | Call.lv_obj_move_foreground _ => true
  | Call.lv_label_set_text _ _ => true
  | _ => false

/-- Number of error log lines in a trace. -/
def error_logs (cs : List Call) : Nat :=
  cs.countP fun c => match c with
    | Call.ESP_LOGE _ _ => true
    | _ => false

/-- Number of containers created (`lv_obj_create`) in a trace. -/
def creations (cs : List Call) : Nat :=
  cs.countP fun c => match c with
    | Call.lv_obj_create _ => true
    | _ => false

/-- Successive calls of `display_image_from_sdcard`, each with its path and the
outcome of its existence check. -/
def display_run (d : Display) : List (List Char × Bool) → Display × List Call
  | [] => (d, [])
  | q :: rest =>
    let r := display_image_from_sdcard d q.1 q.2
    let p := display_run r.1 rest
    (p.1, r.2 ++ p.2)

/-! ## `example_scan_wifi_ble_task` -/

/-- What the outside world answers to the scan task: the value of `wifi_even_` when
the 30 s wait returns, the access-point count `user_esp_bsp.apNum` (as the `int`
that `%d` receives), and the successive outcomes of `xQueueReceive` (`true` is
`pdTRUE`, a record was dequeued; `false` is the 3500-tick timeout). -/
structure ScanIn where
  wifi_group : Nat
  apNum : Int
  queue : List Bool

/-- The drain loop (lines 183-188) with `ble_scan_count` a `uint8_t`: the final
counter and the calls made.  `none` when the listed outcomes end before a timeout
was seen, that is when the loop is still running. -/
def ble_drain : Nat → List Bool → Option (Nat × List Call)
  | _, [] => none
  | count, false :: _ => some (count, [Call.xQueueReceive false])
  | count, true :: rest =>
    match ble_drain ((count + 1) % U8) rest with
    | none => none
    | some r => some (r.1, [Call.xQueueReceive true, Call.vTaskDelay 20] ++ r.2)

/-- Calls of a drain loop that dequeues `n` records and then times out. -/
def drain_calls : Nat → List Call
  | 0 => [Call.xQueueReceive false]
  | n + 1 => [Call.xQueueReceive true, Call.vTaskDelay 20] ++ drain_calls n

/-- Fixed text in front of the BLE count in the summary. -/
def ble_head : List Char := "ble : ".toList

/-- Fixed text between the BLE count and the Wi-Fi field in the summary. -/
def wifi_head : List Char := " wifi : ".toList

/-- Text of the Wi-Fi field when the scan-done bit was not seen (line 195). -/
def wifi_none_text : List Char := "P".toList

/-- The summary text composed at lines 189-196 from the value `even` returned by
the wait, the BLE counter and the access-point count. -/
def scan_summary (even count : Nat) (apNum : Int) : List Char :=
  if READ_BIT even 1 ≠ 0 then
    snprintf 45 (ble_head ++ fmt_d (count : Int) ++ wifi_head ++ fmt_d apNum)
  else
    snprintf 45 (ble_head ++ fmt_d (count : Int) ++ wifi_head ++ wifi_none_text)

/-- The task `example_scan_wifi_ble_task` run to its end: the published summary and
the calls made, in order.  `none` when the drain loop has not ended. -/
def example_scan_wifi_ble_task (i : ScanIn) : Option (List Char × List Call) :=
  let even := (xEventGroupWaitBits i.wifi_group 0x02 true true).1
  match ble_drain 0 i.queue with
  | none => none
  | some (ble_scan_count, drained) =>
    let send_lvgl := scan_summary even ble_scan_count i.apNum
    some (send_lvgl,
      [Call.espwifi_deinit, Call.ble_scan_prepare, Call.ble_stack_init, Call.ble_scan_start]
        ++ drained ++
      [Call.lv_label_set_text Label.screen_label_8 send_lvgl, Call.ble_stack_deinit,
       Call.vTaskDelete])

/-- The Wi-Fi field of a summary whose BLE count is `count`: the text that follows
`"ble : <count> wifi : "`. -/
def wifi_field (summary : List Char) (count : Nat) : List Char :=
  summary.drop (ble_head ++ fmt_d (count : Int) ++ wifi_head).length

/-- The BLE field of a summary: the text between `"ble : "` and the next blank. -/
def ble_field (summary : List Char) : List Char :=
  (summary.drop ble_head.length).takeWhile fun c => c != ' '

/-- The texts published to the summary label `screen_label_8`, in order. -/
def label8_texts : List Call → List (List Char)
  | [] => []
  | Call.lv_label_set_text Label.screen_label_8 t :: cs => t :: label8_texts cs
  | _ :: cs => label8_texts cs

/-- Modelled from the spec: the radio services (`espwifi_init`, `espwifi_deinit`,
`ble_stack_init`, `ble_stack_deinit`) are outside the sources; the spec describes
them as bringing up and releasing the two radio stacks.  The state records which
stacks are initialized. -/
structure Radio where
  wifi : Bool
  ble : Bool
  deriving DecidableEq

/-- Effect of one call on the radio stacks. -/
def Radio.step (r : Radio) : Call → Radio
  | Call.espwifi_init => { r with wifi := true }
  | Call.espwifi_deinit => { r with wifi := false }
  | Call.ble_stack_init => { r with ble := true }
  | Call.ble_stack_deinit => { r with ble := false }
  | _ => r

/-- Radio state after a sequence of calls. -/
def Radio.run (r : Radio) (cs : List Call) : Radio := cs.foldl Radio.step r

/-- The radio state when the scan task starts: `User_LCD_After_Init` has called
`espwifi_init()` (line 165) before it creates the task (line 170). -/
def Radio.at_task_start : Radio := Radio.step ⟨false, false⟩ Call.espwifi_init

/-- Both radio stacks are initialized. -/
def Radio.both (r : Radio) : Bool := r.wifi && r.ble

/-- At no point of the trace `cs`, started in radio state `r`, are both stacks
initialized. -/
def radio_safe (r : Radio) : List Call → Bool
  | [] => !r.both
  | c :: cs => !r.both && radio_safe (r.step c) cs

/-- Position of the first occurrence of a call in a trace. -/
def call_index (c : Call) (cs : List Call) : Nat := cs.indexOf c

/-! ## `example_user_task` -/

/-- A `float` value, kept as its 32-bit pattern; only its being zero is inspected. -/
structure CFloat where
  bits : Nat
  deriving DecidableEq

/-- Truth value of a `float` in a condition: every value but `+0.0` and `-0.0`. -/
def CFloat.nonzero (f : CFloat) : Bool := f.bits % 2 ^ 31 != 0

/-- The value returned by `i2c_rtc_get()`. -/
structure RtcDateTime where
  year : Int
  month : Int
  day : Int
  hour : Int
  minute : Int
  second : Int

/-- The value returned by `i2c_imu_get()`. -/
structure ImuDate where
  accx : CFloat
  accy : CFloat
  accz : CFloat
  gyrox : CFloat
  gyroy : CFloat
  gyroz : CFloat

/-- What the sensors answer in one loop iteration; `adc` is the value
`adc_get_value` stores into `adc_value`. -/
structure SensorIn where
  rtc : RtcDateTime
  imu : ImuDate
  adc : CFloat

/-- Local variables of `example_user_task` (lines 301-309). -/
structure UserState where
  stimes : Nat
  rtc_time : Nat
  qmi_time : Nat
  adc_time : Nat
  rtc_send_buf : List Char
  imu_send_buf : List Char
  imu_flag : Nat
  adc_send_buf : List Char
  adc_value : CFloat

/-- Initial values of the locals. -/
def UserState.init : UserState :=
  { stimes := 0, rtc_time := 0, qmi_time := 0, adc_time := 0, rtc_send_buf := [],
    imu_send_buf := [], imu_flag := 0, adc_send_buf := [], adc_value := ⟨0⟩ }

/-- Text of the clock label (line 316). -/
def rtc_text (d : RtcDateTime) : List Char :=
  snprintf 45 ("rtc : \n".toList ++ fmt_d d.year ++ "/".toList ++ fmt_d d.month ++ "/".toList
    ++ fmt_d d.day ++ "\n".toList ++ fmt_02d d.hour ++ ":".toList ++ fmt_02d d.minute
    ++ ":".toList ++ fmt_02d d.second)

/-- Fixed text that opens the accelerometer display. -/
def acc_head : List Char := "acc : \n".toList

/-- Fixed text that opens the gyroscope display. -/
def gyro_head : List Char := "gyro : \n".toList

/-- Text of the motion label in accelerometer mode (line 324); `fmt_2f` is the
`%.2f` conversion. -/
def acc_text (fmt_2f : CFloat → List Char) (d : ImuDate) : List Char :=
  snprintf 50 (acc_head ++ fmt_2f d.accx ++ "g \n".toList ++ fmt_2f d.accy ++ "g \n".toList
    ++ fmt_2f d.accz ++ "g".toList)

/-- Text of the motion label in gyroscope mode (line 326). -/
def gyro_text (fmt_2f : CFloat → List Char) (d : ImuDate) : List Char :=
  snprintf 50 (gyro_head ++ fmt_2f d.gyrox ++ "dps \n".toList ++ fmt_2f d.gyroy
    ++ "dps \n".toList ++ fmt_2f d.gyroz ++ "dps".toList)

/-- Text of the battery label (line 335). -/
def adc_text (fmt_2f : CFloat → List Char) (v : CFloat) : List Char :=
  snprintf 30 ("vbat : ".toList ++ fmt_2f v ++ "V".toList)

/-- The clock block (lines 312-318). -/
def user_rtc_part (s : UserState) (i : SensorIn) : UserState × List Call :=
  if sub32 s.stimes s.rtc_time > 4 then
    ({ s with rtc_time := s.stimes, rtc_send_buf := rtc_text i.rtc },
     [Call.i2c_rtc_get, Call.lv_label_set_text Label.screen_label_4 (rtc_text i.rtc)])
  else (s, [])

/-- The motion block (lines 319-328). -/
def user_qmi_part (fmt_2f : CFloat → List Char) (s : UserState) (i : SensorIn) :
    UserState × List Call :=
  if sub32 s.stimes s.qmi_time > 4 then
    if s.imu_flag = 0 then
      ({ s with qmi_time := s.stimes, imu_send_buf := acc_text fmt_2f i.imu, imu_flag := 1 },
       [Call.i2c_imu_get, Call.lv_label_set_text Label.screen_label_5 (acc_text fmt_2f i.imu)])
    else
      ({ s with qmi_time := s.stimes, imu_send_buf := gyro_text fmt_2f i.imu, imu_flag := 0 },
       [Call.i2c_imu_get, Call.lv_label_set_text Label.screen_label_5 (gyro_text fmt_2f i.imu)])
  else (s, [])

/-- The battery block (lines 329-338). -/
def user_adc_part (fmt_2f : CFloat → List Char) (s : UserState) (i : SensorIn) :
    UserState × List Call :=
  if sub32 s.stimes s.adc_time > 9 then
    if i.adc.nonzero then
      ({ s with adc_time := s.stimes, adc_value := i.adc, adc_send_buf := adc_text fmt_2f i.adc },
       [Call.adc_get_value, Call.lv_label_set_text Label.screen_label_7 (adc_text fmt_2f i.adc)])
    else
      ({ s with adc_time := s.stimes, adc_value := i.adc }, [Call.adc_get_value])
  else (s, [])

/-- One iteration of the loop of `example_user_task` (lines 312-340). -/
def user_task_iter (fmt_2f : CFloat → List Char) (s : UserState) (i : SensorIn) :
    UserState × List Call :=
  let r1 := user_rtc_part s i
  let r2 := user_qmi_part fmt_2f r1.1 i
  let r3 := user_adc_part fmt_2f r2.1 i
  ({ r3.1 with stimes := (r3.1.stimes + 1) % U32 },
   r1.2 ++ r2.2 ++ r3.2 ++ [Call.vTaskDelay 200])

/-- The loop run for `k` iterations from the state `s`, the sensors answering
`env j` in iteration `j`: the state at the start of iteration `k`, and all calls
made so far. -/
def user_run_from (fmt_2f : CFloat → List Char) (s : UserState) (env : Nat → SensorIn) :
    Nat → UserState × List Call
  | 0 => (s, [])
  | k + 1 =>
    let p := user_run_from fmt_2f s env k
    let r := user_task_iter fmt_2f p.1 (env k)
    (r.1, p.2 ++ r.2)

/-- The loop run for `k` iterations from the initial values of the locals. -/
def user_run (fmt_2f : CFloat → List Char) (env : Nat → SensorIn) (k : Nat) :
    UserState × List Call :=
  user_run_from fmt_2f UserState.init env k

/-- The clock source fires in the iteration that starts in state `s`. -/
def clock_fires (s : UserState) : Bool := decide (sub32 s.stimes s.rtc_time > 4)

/-- The motion source fires in the iteration that starts in state `s`. -/
def motion_fires (s : UserState) : Bool := decide (sub32 s.stimes s.qmi_time > 4)

/-- The battery source fires in the iteration that starts in state `s`. -/
def battery_fires (s : UserState) : Bool := decide (sub32 s.stimes s.adc_time > 9)

/-- The clock source was sampled in an iteration with calls `cs`. -/
def fired_clock (cs : List Call) : Bool := cs.any fun c => decide (c = Call.i2c_rtc_get)

/-- The motion source was sampled in an iteration with calls `cs`. -/
def fired_motion (cs : List Call) : Bool := cs.any fun c => decide (c = Call.i2c_imu_get)

/-- The battery source was sampled in an iteration with calls `cs`. -/
def fired_battery (cs : List Call) : Bool := cs.any fun c => decide (c = Call.adc_get_value)

/-- The last iteration before iteration `k` whose number is a multiple of `p`. -/
def last_fire (p k : Nat) : Nat := (k - 1) / p * p

/-- The two display modes of the motion label. -/
inductive ImuMode
  | acc
  | gyro
  deriving DecidableEq, Repr

/-- Mode shown by a text of the motion label, read off its opening word. -/
def imu_mode (text : List Char) : Option ImuMode :=
  if acc_head.isPrefixOf text then some ImuMode.acc
  else if gyro_head.isPrefixOf text then some ImuMode.gyro
  else none

/-- Accelerometer at the odd firings, gyroscope at the even ones: the modes of the
first `n` motion firings (position `j` holds firing number `j + 1`). -/
def expected_modes (n : Nat) : List (Option ImuMode) :=
  (List.range n).map fun j => if j % 2 = 0 then some ImuMode.acc else some ImuMode.gyro

/-- Text published at motion firing number `j + 1`, which happens in iteration
`5 * (j + 1)`: the accelerometer text of the sample read in that iteration at the
odd firings, the gyroscope text at the even ones. -/
def expected_motion_text (fmt_2f : CFloat → List Char) (env : Nat → SensorIn) (j : Nat) :
    List Char :=
  if j % 2 = 0 then acc_text fmt_2f (env (5 * (j + 1))).imu
  else gyro_text fmt_2f (env (5 * (j + 1))).imu

/-- The texts published to the motion label, in order. -/
def motion_texts : List Call → List (List Char)
  | [] => []
  | Call.lv_label_set_text Label.screen_label_5 t :: cs => t :: motion_texts cs
  | _ :: cs => motion_texts cs

/-- A sample `%.2f` conversion used to run the model on concrete inputs. -/
def fmt_2f_sample (_ : CFloat) : List Char := "0.00".toList

/-- Sample sensor answers used to run the model on concrete inputs. -/
def env_sample (_ : Nat) : SensorIn :=
  { rtc := ⟨2025, 6, 20, 19, 1, 30⟩, imu := ⟨⟨0⟩, ⟨0⟩, ⟨0⟩, ⟨0⟩, ⟨0⟩, ⟨0⟩⟩, adc := ⟨0⟩ }

/-! ## Decimal rendering -/

theorem decimal_core_eq (fuel n : Nat) (h : n < fuel) :
    decimal_core fuel n =
      if n < 10 then [Nat.digitChar n] else decimal (n / 10) ++ [Nat.digitChar (n % 10)] := by
  induction fuel using Nat.strong_induction_on generalizing n with
  | _ fuel ih =>
    cases fuel with
    | zero => omega
    | succ f =>
      rw [decimal_core]
      by_cases h10 : n < 10
      · simp [h10]
      · simp only [h10, if_false]
        have hlt : n / 10 < n := Nat.div_lt_self (by omega) (by decide)
        have e1 := ih f (by omega) (n / 10) (by omega)
        have e2 := ih (n / 10 + 1) (by omega) (n / 10) (by omega)
        rw [e1, show decimal (n / 10) = decimal_core (n / 10 + 1) (n / 10) from rfl, e2]

theorem decimal_eq (n : Nat) :
    decimal n =
      if n < 10 then [Nat.digitChar n] else decimal (n / 10) ++ [Nat.digitChar (n % 10)] :=
  decimal_core_eq (n + 1) n (Nat.lt_succ_self n)

theorem digitChar_ne (d : Nat) (h : d < 10) :
    Nat.digitChar d ≠ '-' ∧ Nat.digitChar d ≠ 'P' ∧ Nat.digitChar d ≠ ' ' := by
  interval_cases d <;> decide

theorem decimal_chars (n : Nat) : ∀ c ∈ decimal n, c ≠ '-' ∧ c ≠ 'P' ∧ c ≠ ' ' := by
  induction n using Nat.strong_induction_on with
  | _ n ih =>
    intro c hc
    rw [decimal_eq] at hc
    by_cases h10 : n < 10
    · simp only [h10, if_true, List.mem_singleton] at hc
      subst hc
      exact digitChar_ne n h10
    · simp only [h10, if_false, List.mem_append, List.mem_singleton] at hc
      rcases hc with hc | hc
      · exact ih (n / 10) (Nat.div_lt_self (by omega) (by decide)) c hc
      · subst hc
        exact digitChar_ne (n % 10) (Nat.mod_lt _ (by decide))

theorem decimal_ne_nil (n : Nat) : decimal n ≠ [] := by
  rw [decimal_eq]
  split <;> simp

theorem decimal_length (e n : Nat) (h : n < 10 ^ (e + 1)) : (decimal n).length ≤ e + 1 := by
  induction e generalizing n with
  | zero =>
    rw [decimal_eq]
    have : n < 10 := by simpa using h
    simp [this]
  | succ e ih =>
    rw [decimal_eq]
    by_cases h10 : n < 10
    · simp [h10]
    · simp only [h10, if_false, List.length_append, List.length_singleton]
      have : n / 10 < 10 ^ (e + 1) := by
        rw [Nat.div_lt_iff_lt_mul (by decide)]
        rw [pow_succ] at h
        exact h
      have := ih (n / 10) this
      omega

theorem fmt_d_ne_nil (z : Int) : fmt_d z ≠ [] := by
  unfold fmt_d
  split
  · simp
  · exact decimal_ne_nil _

theorem fmt_d_no_P (z : Int) : 'P' ∉ fmt_d z := by
  unfold fmt_d
  intro h
  split at h
  · rcases List.mem_cons.1 h with h | h
    · exact absurd h (by decide)
    · exact (decimal_chars _ _ h).2.1 rfl
  · exact (decimal_chars _ _ h).2.1 rfl

/-- A value of type `int` (32 bits) renders in at most eleven characters. -/
theorem fmt_d_length (z : Int) (hlo : -(2 : Int) ^ 31 ≤ z) (hhi : z < (2 : Int) ^ 31) :
    (fmt_d z).length ≤ 11 := by
  have hb : z.natAbs < 10 ^ (9 + 1) := by
    have : (10 : Nat) ^ (9 + 1) = 10000000000 := by norm_num
    omega
  have := decimal_length 9 z.natAbs hb
  unfold fmt_d
  split <;> simp <;> omega

theorem READ_BIT_ne_zero (x n : Nat) : READ_BIT x n ≠ 0 ↔ x.testBit n = true := by
  simp [READ_BIT, Nat.testBit, Nat.and_comm]

theorem even_set_bit_eq : even_set_bit = 35 := by decide

theorem testBit_clearBits (g mask k : Nat) :
    (clearBits g mask).testBit k = (g.testBit k && !mask.testBit k) := by
  simp only [clearBits, Nat.testBit_xor, Nat.testBit_and]
  cases g.testBit k <;> cases mask.testBit k <;> rfl

/-! ## The branches of `button_cycle` -/

theorem button_cycle_single (s : ButtonState) (i : CycleIn) (h0 : i.even.testBit 0 = true) :
    button_cycle s i =
      ({ s with disp := (display_image_from_sdcard s.disp img_path i.file_exists).1 },
       [Call.ESP_LOGI TAG_IMG "Button single-click detected, displaying image".toList,
        Call.display_image_from_sdcard img_path] ++
        (display_image_from_sdcard s.disp img_path i.file_exists).2) := by
  have h := (READ_BIT_ne_zero i.even 0).2 h0
  simp only [button_cycle, if_pos h]

theorem button_cycle_double (s : ButtonState) (i : CycleIn) (h0 : i.even.testBit 0 = false)
    (h1 : i.even.testBit 1 = true) :
    button_cycle s i =
      if s.bl_test = 255 then
        ({ s with bl_test := 0 }, [Call.setUpduty LcdPwmMode.LCD_PWM_MODE_0])
      else if s.bl_test = 0 then
        ({ s with bl_test := 255 }, [Call.setUpduty LcdPwmMode.LCD_PWM_MODE_255])
      else (s, []) := by
  have h := (READ_BIT_ne_zero i.even 1).2 h1
  have hn : ¬ READ_BIT i.even 0 ≠ 0 := by
    rw [READ_BIT_ne_zero]; simp [h0]
  simp only [button_cycle, if_neg hn, if_pos h]

theorem button_cycle_long (s : ButtonState) (i : CycleIn) (h0 : i.even.testBit 0 = false)
    (h1 : i.even.testBit 1 = false) (h5 : i.even.testBit 5 = true) :
    button_cycle s i =
      (let sent := sd_pattern ((s.sdcard_test + 1) % U32)
       let got := match i.sdcard_read sent with
         | none => s.sdcard_read_buf
         | some r => r
       let s1 : ButtonState :=
         { s with sdcard_test := (s.sdcard_test + 1) % U32, sdcard_send_buf := sent,
                  sdcard_read_buf := got }
       if sent = got then
         (s1, [Call.sdcard_file_write "/sdcard/Test.txt" sent,
               Call.sdcard_file_read "/sdcard/Test.txt",
               Call.ESP_LOGI "sdcardTest" "sd card Test pass".toList,
               Call.lv_label_set_text Label.screen_label_6 sd_pass])
       else
         (s1, [Call.sdcard_file_write "/sdcard/Test.txt" sent,
               Call.sdcard_file_read "/sdcard/Test.txt",
               Call.lv_label_set_text Label.screen_label_6 sd_fail])) := by
  have h := (READ_BIT_ne_zero i.even 5).2 h5
  have hn0 : ¬ READ_BIT i.even 0 ≠ 0 := by
    rw [READ_BIT_ne_zero]; simp [h0]
  have hn1 : ¬ READ_BIT i.even 1 ≠ 0 := by
    rw [READ_BIT_ne_zero]; simp [h1]
  simp only [button_cycle, if_neg hn0, if_neg hn1, if_pos h]

theorem button_cycle_idle (s : ButtonState) (i : CycleIn) (h0 : i.even.testBit 0 = false)
    (h1 : i.even.testBit 1 = false) (h5 : i.even.testBit 5 = false) :
    button_cycle s i = (s, [Call.lv_label_set_text Label.screen_label_6 []]) := by
  have hn0 : ¬ READ_BIT i.even 0 ≠ 0 := by
    rw [READ_BIT_ne_zero]; simp [h0]
  have hn1 : ¬ READ_BIT i.even 1 ≠ 0 := by
    rw [READ_BIT_ne_zero]; simp [h1]
  have hn5 : ¬ READ_BIT i.even 5 ≠ 0 := by
    rw [READ_BIT_ne_zero]; simp [h5]
  simp only [button_cycle, if_neg hn0, if_neg hn1, if_neg hn5]

/-- The calls made inside `display_image_from_sdcard` belong to no other handler. -/
theorem display_calls_foreign (d : Display) (path : List Char) (ok : Bool) :
    ran_double (display_image_from_sdcard d path ok).2 = false ∧
    ran_long (display_image_from_sdcard d path ok).2 = false ∧
    ran_idle (display_image_from_sdcard d path ok).2 = false ∧
    ran_single (display_image_from_sdcard d path ok).2 = false := by
  unfold display_image_from_sdcard
  cases ok <;> cases d.img_container <;>
    simp [ran_double, ran_long, ran_idle, ran_single, display_image_finish]

theorem sd_pass_ne_nil : sd_pass ≠ [] := by decide

theorem sd_fail_ne_nil : sd_fail ≠ [] := by decide

/-- What each kind of cycle calls, for a backlight state that is one of the two
duty values. -/
theorem button_cycle_handlers (s : ButtonState) (i : CycleIn)
    (hbl : s.bl_test = 0 ∨ s.bl_test = 255) :
    (ran_single (button_cycle s i).2 = true ↔ i.even.testBit 0 = true) ∧
    (ran_double (button_cycle s i).2 = true ↔
      (i.even.testBit 0 = false ∧ i.even.testBit 1 = true)) ∧
    (ran_long (button_cycle s i).2 = true ↔
      (i.even.testBit 0 = false ∧ i.even.testBit 1 = false ∧ i.even.testBit 5 = true)) ∧
    (ran_idle (button_cycle s i).2 = true ↔
      (i.even.testBit 0 = false ∧ i.even.testBit 1 = false ∧ i.even.testBit 5 = false)) := by
  obtain ⟨f1, f2, f3, f4⟩ := display_calls_foreign s.disp img_path i.file_exists
  cases h0 : i.even.testBit 0
  · cases h1 : i.even.testBit 1
    · cases h5 : i.even.testBit 5
      · rw [button_cycle_idle s i h0 h1 h5]
        simp [ran_single, ran_double, ran_long, ran_idle]
      · rw [button_cycle_long s i h0 h1 h5]
        simp only []
        split <;> simp [ran_single, ran_double, ran_long, ran_idle, sd_pass_ne_nil, sd_fail_ne_nil]
    · rw [button_cycle_double s i h0 h1]
      rcases hbl with hbl | hbl <;> simp [hbl, ran_single, ran_double, ran_long, ran_idle]
  · rw [button_cycle_single s i h0]
    simp only [ran_single, ran_double, ran_long, ran_idle, List.any_append] at f1 f2 f3 f4 ⊢
    rw [f1, f2, f3]
    simp

/-! ## The button loop over a history -/

theorem button_run_append (s : ButtonState) (a b : List CycleIn) :
    button_run s (a ++ b) =
      ((button_run (button_run s a).1 b).1, (button_run s a).2 ++ (button_run (button_run s a).1 b).2) := by
  induction a generalizing s with
  | nil => simp [button_run]
  | cons i a ih => simp [button_run, ih, List.append_assoc]

theorem button_run_snoc (s : ButtonState) (a : List CycleIn) (i : CycleIn) :
    button_run s (a ++ [i]) =
      ((button_cycle (button_run s a).1 i).1,
       (button_run s a).2 ++ (button_cycle (button_run s a).1 i).2) := by
  rw [button_run_append]
  simp [button_run]

theorem is_double_iff (e : Nat) :
    is_double e = true ↔ (e.testBit 0 = false ∧ e.testBit 1 = true) := by
  simp [is_double]

/-- Effect of one cycle on the backlight state and the duty calls. -/
theorem button_cycle_backlight (s : ButtonState) (i : CycleIn)
    (hbl : s.bl_test = 0 ∨ s.bl_test = 255) :
    (button_cycle s i).1.bl_test = (if is_double i.even then 255 - s.bl_test else s.bl_test) ∧
    duty_calls (button_cycle s i).2 =
      (if is_double i.even then
        [if s.bl_test = 255 then LcdPwmMode.LCD_PWM_MODE_0 else LcdPwmMode.LCD_PWM_MODE_255]
       else []) := by
  cases h0 : i.even.testBit 0
  · cases h1 : i.even.testBit 1
    · have hd : is_double i.even = false := by simp [is_double, h0, h1]
      cases h5 : i.even.testBit 5
      · rw [button_cycle_idle s i h0 h1 h5]
        simp [hd, duty_calls]
      · rw [button_cycle_long s i h0 h1 h5]
        simp only [hd]
        split <;> simp [duty_calls]
    · have hd : is_double i.even = true := by simp [is_double, h0, h1]
      rw [button_cycle_double s i h0 h1]
      rcases hbl with hbl | hbl <;> simp [hbl, hd, duty_calls]
  · have hd : is_double i.even = false := by simp [is_double, h0]
    rw [button_cycle_single s i h0]
    have hno : ∀ cs : List Call, ran_double cs = false → duty_calls cs = [] := by
      intro cs
      induction cs with
      | nil => intro _; rfl
      | cons c cs ih =>
        intro h
        simp only [ran_double, List.any_cons, Bool.or_eq_false_iff] at h
        cases c <;> simp_all [duty_calls, ran_double]
    have := hno _ (display_calls_foreign s.disp img_path i.file_exists).1
    simp [hd, duty_calls, this]

theorem expected_duties_succ (n : Nat) :
    expected_duties (n + 1) = expected_duties n ++
      [if n % 2 = 0 then LcdPwmMode.LCD_PWM_MODE_0 else LcdPwmMode.LCD_PWM_MODE_255] := by
  simp [expected_duties, List.range_succ]

theorem duty_calls_append (a b : List Call) : duty_calls (a ++ b) = duty_calls a ++ duty_calls b := by
  induction a with
  | nil => rfl
  | cons c a ih => cases c <;> simp [duty_calls, ih]

/-- Backlight state and duty calls after any history of cycles. -/
theorem button_run_backlight (hist : List CycleIn) :
    (button_run ButtonState.init hist).1.bl_test =
      (if double_clicks hist % 2 = 0 then 255 else 0) ∧
    duty_calls (button_run ButtonState.init hist).2 = expected_duties (double_clicks hist) := by
  induction hist using List.reverseRecOn with
  | nil => simp [button_run, double_clicks, ButtonState.init, duty_calls, expected_duties]
  | append_singleton hist i ih =>
    obtain ⟨ih1, ih2⟩ := ih
    have hbl : (button_run ButtonState.init hist).1.bl_test = 0 ∨
        (button_run ButtonState.init hist).1.bl_test = 255 := by
      rw [ih1]; split <;> simp
    obtain ⟨c1, c2⟩ := button_cycle_backlight (button_run ButtonState.init hist).1 i hbl
    rw [button_run_snoc]
    simp only [duty_calls_append, c1, c2, ih1, ih2]
    have hcount : double_clicks (hist ++ [i]) =
        double_clicks hist + (if is_double i.even then 1 else 0) := by
      simp only [double_clicks, List.filter_append, List.length_append]
      cases hd : is_double i.even <;> simp [List.filter, hd]
    rw [hcount]
    cases hd : is_double i.even
    · simp
    · simp only [if_true, expected_duties_succ]
      by_cases hp : double_clicks hist % 2 = 0
      · have : ¬ (double_clicks hist + 1) % 2 = 0 := by omega
        simp [hp, this]
      · have : (double_clicks hist + 1) % 2 = 0 := by omega
        simp [hp, this]

theorem button_run_bl_test (hist : List CycleIn) :
    (button_run ButtonState.init hist).1.bl_test = 0 ∨
      (button_run ButtonState.init hist).1.bl_test = 255 := by
  rw [(button_run_backlight hist).1]
  split <;> simp

theorem testBit_ne_zero (g k : Nat) (h : g.testBit k = true) : g ≠ 0 := by
  intro h0
  rw [h0, Nat.zero_testBit] at h
  exact Bool.false_ne_true h

/-- The wait of the button task when all three gesture flags are raised. -/
theorem button_wait_three (g : Nat) :
    xEventGroupWaitBits (g ||| even_set_bit) even_set_bit true false =
      (g ||| even_set_bit, clearBits (g ||| even_set_bit) even_set_bit) := by
  have h : ((g ||| even_set_bit) &&& even_set_bit).testBit 0 = true := by
    rw [Nat.testBit_and, Nat.testBit_or, even_set_bit_eq]
    simp
  have := testBit_ne_zero _ _ h
  simp [xEventGroupWaitBits, this]

/-- The wait of the button task when none of the three gesture flags is raised. -/
theorem button_wait_none (g : Nat) (h0 : g.testBit 0 = false) (h1 : g.testBit 1 = false)
    (h5 : g.testBit 5 = false) :
    xEventGroupWaitBits g even_set_bit true false = (g, g) := by
  have : g &&& even_set_bit = 0 := by
    apply Nat.eq_of_testBit_eq
    intro k
    rw [Nat.testBit_and, even_set_bit_eq, Nat.zero_testBit]
    by_cases hk : k < 6
    · have e2 : (35 : Nat).testBit 2 = false := by decide
      have e3 : (35 : Nat).testBit 3 = false := by decide
      have e4 : (35 : Nat).testBit 4 = false := by decide
      interval_cases k <;> simp [h0, h1, h5, e2, e3, e4]
    · have : (35 : Nat).testBit k = false := by
        apply Nat.testBit_lt_two_pow
        calc 35 < 2 ^ 6 := by norm_num
          _ ≤ 2 ^ k := Nat.pow_le_pow_right (by norm_num) (by omega)
      simp [this]
  simp [xEventGroupWaitBits, this]

/-! ## Claims about `example_button_task` -/

/-- A full iteration in which the three gesture flags are raised together. -/
theorem button_iter_three (t : ButtonTask) (j : IterIn) :
    (ran_single (button_task_iter t { j with pressed := j.pressed ||| even_set_bit }).2 = true ∧
     ran_double (button_task_iter t { j with pressed := j.pressed ||| even_set_bit }).2 = false ∧
     ran_long (button_task_iter t { j with pressed := j.pressed ||| even_set_bit }).2 = false ∧
     ran_idle (button_task_iter t { j with pressed := j.pressed ||| even_set_bit }).2 = false) ∧
    ((button_task_iter t { j with pressed := j.pressed ||| even_set_bit }).1.key_groups.testBit 0
        = false ∧
     (button_task_iter t { j with pressed := j.pressed ||| even_set_bit }).1.key_groups.testBit 1
        = false ∧
     (button_task_iter t { j with pressed := j.pressed ||| even_set_bit }).1.key_groups.testBit 5
        = false) := by
  have hw1 : xEventGroupWaitBits (t.key_groups ||| (j.pressed ||| even_set_bit))
      even_set_bit true false =
      ((t.key_groups ||| j.pressed) ||| even_set_bit,
       clearBits ((t.key_groups ||| j.pressed) ||| even_set_bit) even_set_bit) := by
    rw [← Nat.lor_assoc]
    exact button_wait_three _
  have hb0 : ((t.key_groups ||| j.pressed) ||| even_set_bit).testBit 0 = true := by
    rw [Nat.testBit_or, even_set_bit_eq]; simp
  have e1 : (35 : Nat).testBit 1 = true := by decide
  have e5 : (35 : Nat).testBit 5 = true := by decide
  obtain ⟨f1, f2, f3, _⟩ := display_calls_foreign t.st.disp img_path j.file_exists
  simp only [button_task_iter, hw1]
  refine ⟨?_, ?_, ?_, ?_⟩
  · rw [button_cycle_single _ _ hb0]
    simp only [ran_single, ran_double, ran_long, ran_idle, List.any_append] at f1 f2 f3 ⊢
    rw [f1, f2, f3]
    simp
  · simp only [testBit_clearBits, even_set_bit_eq]; simp
  · simp only [testBit_clearBits, even_set_bit_eq]; simp [e1]
  · simp only [testBit_clearBits, even_set_bit_eq]; simp [e5]

/-- A full iteration in which no gesture flag is raised or pending. -/
theorem button_iter_quiet (t : ButtonTask) (j : IterIn) (h0 : t.key_groups.testBit 0 = false)
    (h1 : t.key_groups.testBit 1 = false) (h5 : t.key_groups.testBit 5 = false) :
    ran_single (button_task_iter t { j with pressed := 0 }).2 = false ∧
    ran_double (button_task_iter t { j with pressed := 0 }).2 = false ∧
    ran_long (button_task_iter t { j with pressed := 0 }).2 = false ∧
    ran_idle (button_task_iter t { j with pressed := 0 }).2 = true := by
  have hw2 : xEventGroupWaitBits (t.key_groups ||| 0) even_set_bit true false =
      (t.key_groups, t.key_groups) := by
    rw [Nat.or_zero]
    exact button_wait_none _ h0 h1 h5
  simp only [button_task_iter, hw2]
  rw [button_cycle_idle _ _ h0 h1 h5]
  simp [ran_single, ran_double, ran_long, ran_idle]

/-- Exactly one handler runs in a cycle. -/
theorem button_cycle_one_handler (s : ButtonState) (i : CycleIn)
    (hbl : s.bl_test = 0 ∨ s.bl_test = 255) :
    (ran_single (button_cycle s i).2).toNat + (ran_double (button_cycle s i).2).toNat
      + (ran_long (button_cycle s i).2).toNat + (ran_idle (button_cycle s i).2).toNat = 1 := by
  obtain ⟨a1, a2, a3, a4⟩ := button_cycle_handlers s i hbl
  cases h0 : i.even.testBit 0 <;> cases h1 : i.even.testBit 1 <;>
    cases h5 : i.even.testBit 5 <;>
    simp only [h0, h1, h5, and_self, and_true, and_false, true_and, false_and,
      Bool.false_eq_true, iff_false, iff_true, Bool.not_eq_true, reduceCtorEq] at a1 a2 a3 a4 <;>
    simp only [a1, a2, a3, a4] <;> rfl

/-- C1: in one wait cycle of `example_button_task`, for every returned event value,
exactly one of the four branches runs, chosen by fixed priority: the single-click
handler iff bit 0 is set; the double-click handler iff bit 0 is clear and bit 1 is
set; the long-press self-test iff bits 0 and 1 are clear and bit 5 is set; the
idle branch otherwise.  When bits 0, 1 and 5 are all raised, only the single-click
handler runs, the wait clears the three bits together, and a following cycle in
which no new flag is raised runs the idle branch only. -/
theorem C1_button_priority (hist : List CycleIn) (i : CycleIn) (t : ButtonTask)
    (j1 j2 : IterIn) :
    let cs := (button_cycle (button_run ButtonState.init hist).1 i).2
    let r1 := button_task_iter t { j1 with pressed := j1.pressed ||| even_set_bit }
    let r2 := button_task_iter r1.1 { j2 with pressed := 0 }
    (ran_single cs = true ↔ i.even.testBit 0 = true) ∧
    (ran_double cs = true ↔ (i.even.testBit 0 = false ∧ i.even.testBit 1 = true)) ∧
    (ran_long cs = true ↔
      (i.even.testBit 0 = false ∧ i.even.testBit 1 = false ∧ i.even.testBit 5 = true)) ∧
    (ran_idle cs = true ↔
      (i.even.testBit 0 = false ∧ i.even.testBit 1 = false ∧ i.even.testBit 5 = false)) ∧
    (ran_single cs).toNat + (ran_double cs).toNat + (ran_long cs).toNat
      + (ran_idle cs).toNat = 1 ∧
    (ran_single r1.2 = true ∧ ran_double r1.2 = false ∧ ran_long r1.2 = false ∧
      ran_idle r1.2 = false) ∧
    (r1.1.key_groups.testBit 0 = false ∧ r1.1.key_groups.testBit 1 = false ∧
      r1.1.key_groups.testBit 5 = false) ∧
    (ran_single r2.2 = false ∧ ran_double r2.2 = false ∧ ran_long r2.2 = false ∧
      ran_idle r2.2 = true) := by
  intro cs r1 r2
  obtain ⟨a1, a2, a3, a4⟩ :=
    button_cycle_handlers (button_run ButtonState.init hist).1 i (button_run_bl_test hist)
  have hsum := button_cycle_one_handler (button_run ButtonState.init hist).1 i
    (button_run_bl_test hist)
  have h3 := button_iter_three t j1
  have hq := button_iter_quiet
    (button_task_iter t { j1 with pressed := j1.pressed ||| even_set_bit }).1 j2
    h3.2.1 h3.2.2.1 h3.2.2.2
  exact ⟨a1, a2, a3, a4, hsum, h3.1, h3.2, hq⟩

/-- C5: for every sequence of button events handled by `example_button_task`, the
backlight state `bl_test` is always one of the two duty values 0 and 255; a
double-click cycle flips it to the other value and calls `setUpduty` once with the
matching mode, every other cycle leaves it unchanged and sets no duty; the duty
calls made over the whole history are duty 0 at the odd double-clicks and duty 255
at the even ones, whatever other gestures are interleaved. -/
theorem C5_backlight_toggle (hist : List CycleIn) (i : CycleIn) :
    let s := (button_run ButtonState.init hist).1
    let r := button_cycle s i
    (s.bl_test = 0 ∨ s.bl_test = 255) ∧
    r.1.bl_test = (if is_double i.even then 255 - s.bl_test else s.bl_test) ∧
    duty_calls r.2 =
      (if is_double i.even then
        [if r.1.bl_test = 0 then LcdPwmMode.LCD_PWM_MODE_0 else LcdPwmMode.LCD_PWM_MODE_255]
       else []) ∧
    ran_double r.2 = is_double i.even ∧
    s.bl_test = (if double_clicks hist % 2 = 0 then 255 else 0) ∧
    duty_calls (button_run ButtonState.init hist).2 = expected_duties (double_clicks hist) := by
  intro s r
  have hbl := button_run_bl_test hist
  obtain ⟨c1, c2⟩ := button_cycle_backlight s i hbl
  obtain ⟨b1, b2⟩ := button_run_backlight hist
  have hd := (button_cycle_handlers s i hbl).2.1
  refine ⟨hbl, c1, ?_, ?_, b1, b2⟩
  · rw [c2, c1]
    cases hdb : is_double i.even
    · simp
    · rcases hbl with h | h <;> simp [s, h]
  · cases hdb : is_double i.even
    · have : ¬ (i.even.testBit 0 = false ∧ i.even.testBit 1 = true) := by
        rw [← is_double_iff, hdb]; simp
      cases hr : ran_double (button_cycle s i).2
      · rfl
      · exact absurd (hd.1 hr) this
    · exact hd.2 ((is_double_iff _).1 hdb)

/-! ## The self-test -/

/-- The call with a missing file. -/
theorem display_miss (d : Display) (path : List Char) :
    display_image_from_sdcard d path false =
      (d, [Call.ESP_LOGI TAG_IMG ("Attempting to display image from: ".toList ++ path),
           Call.ESP_LOGE TAG_IMG ("Image file not found: ".toList ++ path)]) := by
  simp [display_image_from_sdcard]

/-- The call with an existing file: container, images, creations, error lines. -/
theorem display_hit (d : Display) (path : List Char) :
    (display_image_from_sdcard d path true).1.img_container =
      some (d.img_container.getD d.allocated) ∧
    (display_image_from_sdcard d path true).1.images.map Prod.snd =
      [snprintf 64 ("S:".toList ++ path)] ∧
    creations (display_image_from_sdcard d path true).2 =
      (if d.img_container.isSome then 0 else 1) ∧
    error_logs (display_image_from_sdcard d path true).2 = 0 := by
  unfold display_image_from_sdcard
  cases h : d.img_container <;>
    simp [display_image_finish, creations, error_logs, List.countP_cons]

theorem creations_append (a b : List Call) : creations (a ++ b) = creations a + creations b := by
  simp [creations, List.countP_append]

/-- Containers created over successive calls, from any display state. -/
theorem display_run_creations (d : Display) (reqs : List (List Char × Bool)) :
    creations (display_run d reqs).2 =
      (if d.img_container.isSome then 0 else if reqs.any (fun q => q.2) then 1 else 0) ∧
    (display_run d reqs).1.img_container =
      (if d.img_container.isSome then d.img_container
       else if reqs.any (fun q => q.2) then some d.allocated else none) := by
  induction reqs generalizing d with
  | nil =>
    cases h : d.img_container <;> simp [display_run, creations, h]
  | cons q reqs ih =>
    obtain ⟨p, ok⟩ := q
    cases ok
    · simp only [display_run, display_miss, creations_append, List.any_cons, Bool.false_or]
      have := ih d
      simp only [creations, List.countP_cons, List.countP_nil] at this ⊢
      simpa using this
    · obtain ⟨h1, _, h3, _⟩ := display_hit d p
      have := ih (display_image_from_sdcard d p true).1
      simp only [h1, Option.isSome_some, if_true] at this
      simp only [display_run, creations_append, List.any_cons, Bool.true_or, this.1, this.2, h3]
      cases h : d.img_container <;> simp

/-- C8: when the existence check fails, `display_image_from_sdcard` returns without
creating, cleaning or modifying any display object: the cached container and the
images in it are unchanged, no image source is set, and exactly one error line
is logged.  When the file exists the cached container is reused: it is created
only when there is none yet, so over any sequence of calls at most one container
is ever created, by the first call that finds its file. -/
theorem C8_missing_file_frame (d : Display) (path : List Char)
    (reqs : List (List Char × Bool)) :
    let miss := display_image_from_sdcard d path false
    let hit := display_image_from_sdcard d path true
    miss.1 = d ∧
    miss.2 = [Call.ESP_LOGI TAG_IMG ("Attempting to display image from: ".toList ++ path),
              Call.ESP_LOGE TAG_IMG ("Image file not found: ".toList ++ path)] ∧
    miss.2.filter is_lvgl = [] ∧
    error_logs miss.2 = 1 ∧
    hit.1.img_container = some (d.img_container.getD d.allocated) ∧
    hit.1.images.map Prod.snd = [snprintf 64 ("S:".toList ++ path)] ∧
    creations hit.2 = (if d.img_container.isSome then 0 else 1) ∧
    error_logs hit.2 = 0 ∧
    creations (display_run Display.init reqs).2 = (if reqs.any (fun q => q.2) then 1 else 0) ∧
    (display_run Display.init reqs).1.img_container =
      (if reqs.any (fun q => q.2) then some 0 else none) := by
  intro miss hit
  obtain ⟨h1, h2, h3, h4⟩ := display_hit d path
  obtain ⟨r1, r2⟩ := display_run_creations Display.init reqs
  refine ⟨?_, ?_, ?_, ?_, h1, h2, h3, h4, ?_, ?_⟩
  · simp only [miss, display_miss]
  · simp only [miss, display_miss]
  · simp only [miss, display_miss]
    simp [is_lvgl]
  · simp only [miss, display_miss]
    simp [error_logs, List.countP_cons]
  · simpa [Display.init] using r1
  · simpa [Display.init] using r2

/-! ## The scan task -/

theorem fmt_d_natCast (n : Nat) : fmt_d (n : Int) = decimal n := by
  unfold fmt_d
  have : ¬ ((n : Int) < 0) := by omega
  simp [this]

/-- The drain loop over `n` dequeues followed by a timeout. -/
theorem ble_drain_eq (n c : Nat) (rest : List Bool) :
    ble_drain (c % U8) (List.replicate n true ++ false :: rest) =
      some ((c + n) % U8, drain_calls n) := by
  induction n generalizing c with
  | zero => simp [ble_drain, drain_calls]
  | succ n ih =>
    have e : (c % U8 + 1) % U8 = (c + 1) % U8 := by unfold U8; omega
    have := ih (c + 1)
    have e2 : c + 1 + n = c + (n + 1) := by omega
    rw [e2] at this
    simp only [List.replicate_succ, List.cons_append, ble_drain, e, drain_calls]
    rw [show (List.replicate n true).append (false :: rest) =
      List.replicate n true ++ false :: rest from rfl, this]

/-- The value returned by a wait is the value of the event group. -/
theorem xEventGroupWaitBits_fst (g m : Nat) (c w : Bool) :
    (xEventGroupWaitBits g m c w).1 = g := by
  unfold xEventGroupWaitBits
  simp only []
  split <;> split <;> rfl

/-- The complete run of the scan task after `n` dequeues and a timeout. -/
theorem scan_task_eq (g : Nat) (ap : Int) (n : Nat) (rest : List Bool) :
    example_scan_wifi_ble_task ⟨g, ap, List.replicate n true ++ false :: rest⟩ =
      some (scan_summary g (n % U8) ap,
        [Call.espwifi_deinit, Call.ble_scan_prepare, Call.ble_stack_init, Call.ble_scan_start]
          ++ drain_calls n ++
        [Call.lv_label_set_text Label.screen_label_8 (scan_summary g (n % U8) ap),
         Call.ble_stack_deinit, Call.vTaskDelete]) := by
  have h := ble_drain_eq n 0 rest
  simp only [Nat.zero_mod, Nat.zero_add] at h
  simp only [example_scan_wifi_ble_task, h, xEventGroupWaitBits_fst]

theorem ble_head_length : ble_head.length = 6 := by decide

theorem wifi_head_length : wifi_head.length = 8 := by decide

theorem count_text_length (c : Nat) (h : c < U8) : (fmt_d (c : Int)).length ≤ 3 := by
  rw [fmt_d_natCast]
  exact decimal_length 2 c (by unfold U8 at h; omega)

/-- The Wi-Fi field of the summary, for an access-point count in the range of `int`. -/
theorem wifi_field_summary (g c : Nat) (ap : Int) (hc : c < U8)
    (hlo : -(2 : Int) ^ 31 ≤ ap) (hhi : ap < (2 : Int) ^ 31) :
    scan_summary g c ap = ble_head ++ fmt_d (c : Int) ++ wifi_head ++
        (if g.testBit 1 then fmt_d ap else wifi_none_text) ∧
    wifi_field (scan_summary g c ap) c = (if g.testBit 1 then fmt_d ap else wifi_none_text) := by
  have h1 := count_text_length c hc
  have h2 := fmt_d_length ap hlo hhi
  have hP : wifi_none_text.length = 1 := by decide
  have key : scan_summary g c ap = ble_head ++ fmt_d (c : Int) ++ wifi_head ++
        (if g.testBit 1 then fmt_d ap else wifi_none_text) := by
    unfold scan_summary snprintf
    by_cases hb : g.testBit 1 = true
    · have := (READ_BIT_ne_zero g 1).2 hb
      rw [if_pos this, if_pos hb]
      apply List.take_of_length_le
      simp only [List.length_append, ble_head_length, wifi_head_length]
      omega
    · have hn : ¬ READ_BIT g 1 ≠ 0 := fun h => hb ((READ_BIT_ne_zero g 1).1 h)
      rw [if_neg hn, if_neg hb]
      apply List.take_of_length_le
      simp only [List.length_append, ble_head_length, wifi_head_length, hP]
      omega
  refine ⟨key, ?_⟩
  rw [key, wifi_field]
  exact List.drop_left _ _

/-- The BLE field of the summary, whatever follows it. -/
theorem ble_field_summary (g c : Nat) (ap : Int) (hc : c < U8) :
    ble_field (scan_summary g c ap) = decimal c := by
  have h1 := count_text_length c hc
  rw [fmt_d_natCast] at h1
  have hsp : ∀ a ∈ decimal c, (a != ' ') = true := by
    intro a ha
    simpa using (decimal_chars c a ha).2.2
  have key : ∀ X : List Char,
      ble_field (snprintf 45 (ble_head ++ fmt_d (c : Int) ++ wifi_head ++ X)) = decimal c := by
    intro X
    have hw : wifi_head = ' ' :: "wifi : ".toList := by decide
    rw [fmt_d_natCast, ble_field, snprintf, List.drop_take, List.append_assoc, List.append_assoc,
      List.drop_left, List.take_append_eq_append_take,
      List.take_of_length_le (by rw [ble_head_length]; omega), hw]
    have : 45 - 1 - ble_head.length - (decimal c).length =
        (45 - 1 - ble_head.length - (decimal c).length - 1) + 1 := by
      rw [ble_head_length]; omega
    rw [this, List.cons_append, List.take_succ_cons, List.takeWhile_append_of_pos hsp]
    simp
  unfold scan_summary
  split
  · exact key _
  · exact key _

theorem label8_texts_drain (n : Nat) (post : List Call) :
    label8_texts (drain_calls n ++ post) = label8_texts post := by
  induction n with
  | zero => rfl
  | succ n ih => simpa [drain_calls, label8_texts] using ih

/-- The summary is published exactly once. -/
theorem scan_published (g : Nat) (ap : Int) (m : Nat) :
    label8_texts
      ([Call.espwifi_deinit, Call.ble_scan_prepare, Call.ble_stack_init, Call.ble_scan_start]
          ++ drain_calls m ++
        [Call.lv_label_set_text Label.screen_label_8 (scan_summary g (m % U8) ap),
         Call.ble_stack_deinit, Call.vTaskDelete]) = [scan_summary g (m % U8) ap] := by
  rw [List.append_assoc]
  rw [show label8_texts ([Call.espwifi_deinit, Call.ble_scan_prepare, Call.ble_stack_init,
      Call.ble_scan_start] ++ (drain_calls m ++
      [Call.lv_label_set_text Label.screen_label_8 (scan_summary g (m % U8) ap),
       Call.ble_stack_deinit, Call.vTaskDelete])) =
    label8_texts (drain_calls m ++
      [Call.lv_label_set_text Label.screen_label_8 (scan_summary g (m % U8) ap),
       Call.ble_stack_deinit, Call.vTaskDelete]) from rfl, label8_texts_drain]
  rfl

/-- C2, as stated, fails: with the scan-done bit not observed the Wi-Fi field of the
published summary is the letter `P`, not the word "unknown". -/
theorem C2_wifi_field_counterexample :
    (xEventGroupWaitBits 0 0x02 true true).1.testBit 1 = false ∧
    (example_scan_wifi_ble_task ⟨0, 3, [false]⟩).map (fun r => r.1)
      = some "ble : 0 wifi : P".toList ∧
    (example_scan_wifi_ble_task ⟨0, 3, [false]⟩).map (fun r => wifi_field r.1 0)
      = some "P".toList ∧
    (example_scan_wifi_ble_task ⟨0, 3, [false]⟩).map (fun r => wifi_field r.1 0)
      ≠ some "unknown".toList := by
  decide

/-- C2, amended: in `example_scan_wifi_ble_task` the Wi-Fi field of the published
summary is the letter `P` if and only if the Wi-Fi scan-done bit (bit 1) is not
set in the value returned by the 30 s wait; otherwise the field is the decimal
rendering of the access-point count `user_esp_bsp.apNum`. -/
theorem C2_wifi_field (g : Nat) (ap : Int) (n : Nat) (rest : List Bool)
    (hlo : -(2 : Int) ^ 31 ≤ ap) (hhi : ap < (2 : Int) ^ 31) :
    ((example_scan_wifi_ble_task ⟨g, ap, List.replicate n true ++ false :: rest⟩).map
        (fun r => wifi_field r.1 (n % U8)) = some wifi_none_text ↔
      (xEventGroupWaitBits g 0x02 true true).1.testBit 1 = false) ∧
    ((example_scan_wifi_ble_task ⟨g, ap, List.replicate n true ++ false :: rest⟩).map
        (fun r => wifi_field r.1 (n % U8)) = some (fmt_d ap) ↔
      (xEventGroupWaitBits g 0x02 true true).1.testBit 1 = true) ∧
    (example_scan_wifi_ble_task ⟨g, ap, List.replicate n true ++ false :: rest⟩).map
        (fun r => label8_texts r.2) =
      (example_scan_wifi_ble_task ⟨g, ap, List.replicate n true ++ false :: rest⟩).map
        (fun r => [r.1]) ∧
    (example_scan_wifi_ble_task ⟨g, ap, List.replicate n true ++ false :: rest⟩).map
        (fun r => r.1) =
      some (ble_head ++ decimal (n % U8) ++ wifi_head ++
        (if (xEventGroupWaitBits g 0x02 true true).1.testBit 1 then fmt_d ap
         else wifi_none_text)) ∧
    wifi_none_text = ['P'] := by
  have hc : n % U8 < U8 := Nat.mod_lt _ (by decide)
  obtain ⟨k1, k2⟩ := wifi_field_summary g (n % U8) ap hc hlo hhi
  have hP : fmt_d ap ≠ wifi_none_text := by
    intro h
    have : 'P' ∈ fmt_d ap := by rw [h]; decide
    exact fmt_d_no_P ap this
  have hpub := scan_published g ap n
  rw [scan_task_eq g ap n rest, xEventGroupWaitBits_fst]
  simp only [Option.map_some', k2, hpub]
  refine ⟨?_, ?_, trivial, ?_, rfl⟩
  · cases g.testBit 1 <;> simp [hP]
  · cases g.testBit 1 <;> simp [Ne.symm hP]
  · rw [k1, fmt_d_natCast]

/-- C2 (amended) at a concrete input: bit 1 observed, seven access points, two
records dequeued. -/
theorem C2_wifi_field_witness :
    (example_scan_wifi_ble_task ⟨2, 7, [true, true, false]⟩).map (fun r => r.1)
      = some (ble_head ++ decimal (2 % U8) ++ wifi_head ++
          (if (xEventGroupWaitBits 2 0x02 true true).1.testBit 1 then fmt_d 7 else wifi_none_text)) :=
  (C2_wifi_field 2 7 2 [] (by decide) (by decide)).2.2.2.1

/-- What the summary shows as BLE count after `n` successful dequeues followed by one
timeout: the value of the 8-bit counter `ble_scan_count`, which is `n` itself for
every `n` below 256; the summary is published exactly once. -/
theorem scan_ble_count_shown (g : Nat) (ap : Int) (n : Nat) (rest : List Bool) :
    (example_scan_wifi_ble_task ⟨g, ap, List.replicate n true ++ false :: rest⟩).map
        (fun r => ble_field r.1) = some (decimal (n % 256)) ∧
    (example_scan_wifi_ble_task ⟨g, ap, List.replicate n true ++ false :: rest⟩).map
        (fun r => label8_texts r.2) =
      (example_scan_wifi_ble_task ⟨g, ap, List.replicate n true ++ false :: rest⟩).map
        (fun r => [r.1]) ∧
    (n < 256 →
      (example_scan_wifi_ble_task ⟨g, ap, List.replicate n true ++ false :: rest⟩).map
        (fun r => ble_field r.1) = some (decimal n)) := by
  have hc : n % U8 < U8 := Nat.mod_lt _ (by decide)
  have h1 : (example_scan_wifi_ble_task ⟨g, ap, List.replicate n true ++ false :: rest⟩).map
      (fun r => ble_field r.1) = some (decimal (n % 256)) := by
    simp only [scan_task_eq g ap n rest, Option.map_some', ble_field_summary g (n % U8) ap hc]
    rfl
  refine ⟨h1, ?_, ?_⟩
  · simp only [scan_task_eq g ap n rest, Option.map_some', scan_published g ap n]
  · intro hn
    rw [h1, Nat.mod_eq_of_lt hn]

/-- C3: the code breaks the claim at 256 arrivals.  With zero arrivals the summary
is published and shows count 0, and after 255 successful dequeues it shows 255, as
the claim says; after 256 successful dequeues followed by the timeout the 8-bit
counter `ble_scan_count` has wrapped, and the published summary is
`ble : 0 wifi : P`: it shows count 0 where the claim says 256. -/
theorem C3_ble_count_overflow :
    (example_scan_wifi_ble_task ⟨0, 0, [false]⟩).map (fun r => ble_field r.1)
      = some "0".toList ∧
    (example_scan_wifi_ble_task ⟨0, 0, [false]⟩).map (fun r => label8_texts r.2)
      = some ["ble : 0 wifi : P".toList] ∧
    (example_scan_wifi_ble_task ⟨0, 0, List.replicate 255 true ++ [false]⟩).map
      (fun r => ble_field r.1) = some "255".toList ∧
    (example_scan_wifi_ble_task ⟨0, 0, List.replicate 256 true ++ [false]⟩).map
      (fun r => r.1) = some "ble : 0 wifi : P".toList ∧
    (example_scan_wifi_ble_task ⟨0, 0, List.replicate 256 true ++ [false]⟩).map
      (fun r => label8_texts r.2) = some ["ble : 0 wifi : P".toList] ∧
    (example_scan_wifi_ble_task ⟨0, 0, List.replicate 256 true ++ [false]⟩).map
      (fun r => ble_field r.1) = some "0".toList ∧
    decimal 256 = "256".toList ∧
    (example_scan_wifi_ble_task ⟨0, 0, List.replicate 256 true ++ [false]⟩).map
      (fun r => ble_field r.1) ≠ some (decimal 256) := by
  have h0 : example_scan_wifi_ble_task ⟨0, 0, [false]⟩ = _ := scan_task_eq 0 0 0 []
  have h255 := scan_task_eq 0 0 255 []
  have h256 := scan_task_eq 0 0 256 []
  have p0 := scan_published 0 0 0
  have p256 := scan_published 0 0 256
  rw [h0, h255, h256]
  simp only [Option.map_some', p0, p256]
  decide

/-! ## Radio ownership along the scan task -/

theorem drain_calls_mem (n : Nat) :
    ∀ c ∈ drain_calls n,
      c = Call.xQueueReceive true ∨ c = Call.vTaskDelay 20 ∨ c = Call.xQueueReceive false := by
  induction n with
  | zero => intro c hc; simp [drain_calls] at hc; simp [hc]
  | succ n ih =>
    intro c hc
    simp only [drain_calls, List.cons_append, List.nil_append, List.mem_cons] at hc
    rcases hc with h | h | h
    · simp [h]
    · simp [h]
    · exact ih c h

theorem radio_run_drain (r : Radio) (n : Nat) : Radio.run r (drain_calls n) = r := by
  induction n with
  | zero => rfl
  | succ n ih => simpa [drain_calls, Radio.run, Radio.step] using ih

theorem radio_safe_cons (r : Radio) (c : Call) (cs : List Call) :
    radio_safe r (c :: cs) = (!r.both && radio_safe (r.step c) cs) := rfl

theorem radio_safe_drain (r : Radio) (n : Nat) (post : List Call) :
    radio_safe r (drain_calls n ++ post) = (!r.both && radio_safe r post) := by
  induction n with
  | zero => simp [drain_calls, radio_safe, Radio.step]
  | succ n ih =>
    simp only [drain_calls, List.cons_append, List.nil_append, radio_safe_cons, Radio.step]
    rw [ih]
    cases r.both <;> simp

/-- A safe trace is safe at every point. -/
theorem radio_safe_take (r : Radio) (cs : List Call) (h : radio_safe r cs = true) (k : Nat) :
    (Radio.run r (cs.take k)).both = false := by
  induction cs generalizing r k with
  | nil =>
    simp only [radio_safe, Bool.not_eq_true'] at h
    simpa [Radio.run] using h
  | cons c cs ih =>
    simp only [radio_safe, Bool.and_eq_true, Bool.not_eq_true'] at h
    cases k with
    | zero => simpa [Radio.run] using h.1
    | succ k =>
      have := ih (r.step c) h.2 k
      simpa [Radio.run] using this

/-- C7: over the radio ownership state (Wi-Fi active, idle, BLE active), for every
outcome of the 30 s Wi-Fi wait and every number of dequeued BLE records, the scan
task ends; its Wi-Fi release `espwifi_deinit` comes before the BLE bring-up
`ble_stack_init`, the BLE release `ble_stack_deinit` comes after the bring-up and
before the task terminates (`vTaskDelete`, its last call); at no point of the
trace are both radio stacks initialized, and at the end both are released. -/
theorem C7_radio_handoff (g : Nat) (ap : Int) (n : Nat) (rest : List Bool) :
    ∃ summary calls,
      example_scan_wifi_ble_task ⟨g, ap, List.replicate n true ++ false :: rest⟩
        = some (summary, calls) ∧
      calls = [Call.espwifi_deinit, Call.ble_scan_prepare, Call.ble_stack_init,
          Call.ble_scan_start] ++ drain_calls n ++
        [Call.lv_label_set_text Label.screen_label_8 summary, Call.ble_stack_deinit,
         Call.vTaskDelete] ∧
      call_index Call.espwifi_deinit calls < call_index Call.ble_stack_init calls ∧
      call_index Call.ble_stack_init calls < call_index Call.ble_stack_deinit calls ∧
      call_index Call.ble_stack_deinit calls < call_index Call.vTaskDelete calls ∧
      call_index Call.vTaskDelete calls + 1 = calls.length ∧
      Radio.at_task_start = ⟨true, false⟩ ∧
      (∀ k, (Radio.run Radio.at_task_start (calls.take k)).both = false) ∧
      Radio.run Radio.at_task_start calls = ⟨false, false⟩ := by
  refine ⟨_, _, scan_task_eq g ap n rest, rfl, ?_⟩
  generalize scan_summary g (n % U8) ap = summary
  have hmem := drain_calls_mem n
  have hd1 : Call.ble_stack_deinit ∉ drain_calls n := by
    intro h
    rcases hmem _ h with h | h | h <;> exact absurd h (by decide)
  have hd2 : Call.vTaskDelete ∉ drain_calls n := by
    intro h
    rcases hmem _ h with h | h | h <;> exact absurd h (by decide)
  have i1 : call_index Call.espwifi_deinit
      ([Call.espwifi_deinit, Call.ble_scan_prepare, Call.ble_stack_init, Call.ble_scan_start]
        ++ drain_calls n ++ [Call.lv_label_set_text Label.screen_label_8 summary,
          Call.ble_stack_deinit, Call.vTaskDelete]) = 0 := by
    simp [call_index, List.indexOf_cons]
  have i2 : call_index Call.ble_stack_init
      ([Call.espwifi_deinit, Call.ble_scan_prepare, Call.ble_stack_init, Call.ble_scan_start]
        ++ drain_calls n ++ [Call.lv_label_set_text Label.screen_label_8 summary,
          Call.ble_stack_deinit, Call.vTaskDelete]) = 2 := by
    simp [call_index, List.indexOf_cons]
  have i3 : call_index Call.ble_stack_deinit
      ([Call.espwifi_deinit, Call.ble_scan_prepare, Call.ble_stack_init, Call.ble_scan_start]
        ++ drain_calls n ++ [Call.lv_label_set_text Label.screen_label_8 summary,
          Call.ble_stack_deinit, Call.vTaskDelete]) = 4 + (drain_calls n).length + 1 := by
    simp only [call_index, List.append_assoc]
    rw [List.indexOf_append_of_not_mem (by decide), List.indexOf_append_of_not_mem hd1]
    simp [List.indexOf_cons, Nat.add_assoc]
  have i4 : call_index Call.vTaskDelete
      ([Call.espwifi_deinit, Call.ble_scan_prepare, Call.ble_stack_init, Call.ble_scan_start]
        ++ drain_calls n ++ [Call.lv_label_set_text Label.screen_label_8 summary,
          Call.ble_stack_deinit, Call.vTaskDelete]) = 4 + (drain_calls n).length + 2 := by
    simp only [call_index, List.append_assoc]
    rw [List.indexOf_append_of_not_mem (by decide), List.indexOf_append_of_not_mem hd2]
    simp [List.indexOf_cons, Nat.add_assoc]
  have hsafe : radio_safe Radio.at_task_start
      ([Call.espwifi_deinit, Call.ble_scan_prepare, Call.ble_stack_init, Call.ble_scan_start]
        ++ drain_calls n ++ [Call.lv_label_set_text Label.screen_label_8 summary,
          Call.ble_stack_deinit, Call.vTaskDelete]) = true := by
    simp only [List.append_assoc, List.cons_append, List.nil_append, radio_safe_cons, Radio.step,
      Radio.at_task_start]
    rw [radio_safe_drain]
    simp [Radio.both, radio_safe, Radio.step]
  have hrun : Radio.run Radio.at_task_start
      ([Call.espwifi_deinit, Call.ble_scan_prepare, Call.ble_stack_init, Call.ble_scan_start]
        ++ drain_calls n ++ [Call.lv_label_set_text Label.screen_label_8 summary,
          Call.ble_stack_deinit, Call.vTaskDelete]) = ⟨false, false⟩ := by
    have := radio_run_drain
      (Radio.run Radio.at_task_start [Call.espwifi_deinit, Call.ble_scan_prepare,
        Call.ble_stack_init, Call.ble_scan_start]) n
    simp only [Radio.run] at this
    simp only [Radio.run, List.foldl_append, this]
    rfl
  refine ⟨?_, ?_, ?_, ?_, rfl, radio_safe_take _ _ hsafe, hrun⟩
  · rw [i1, i2]; decide
  · rw [i2, i3]; omega
  · rw [i3, i4]; omega
  · rw [i4]; simp only [List.length_append, List.length_cons, List.length_nil]

/-! ## The telemetry loop -/

/-- Effect of one iteration on the tick and the three marks. -/
theorem user_iter_times (fmt_2f : CFloat → List Char) (s : UserState) (i : SensorIn) :
    (user_task_iter fmt_2f s i).1.stimes = (s.stimes + 1) % U32 ∧
    (user_task_iter fmt_2f s i).1.rtc_time =
      (if sub32 s.stimes s.rtc_time > 4 then s.stimes else s.rtc_time) ∧
    (user_task_iter fmt_2f s i).1.qmi_time =
      (if sub32 s.stimes s.qmi_time > 4 then s.stimes else s.qmi_time) ∧
    (user_task_iter fmt_2f s i).1.adc_time =
      (if sub32 s.stimes s.adc_time > 9 then s.stimes else s.adc_time) := by
  simp only [user_task_iter, user_rtc_part, user_qmi_part, user_adc_part]
  refine ⟨?_, ?_, ?_, ?_⟩ <;>
    (split_ifs <;> simp_all)

/-- Which sources are sampled in one iteration. -/
theorem user_iter_fired (fmt_2f : CFloat → List Char) (s : UserState) (i : SensorIn) :
    fired_clock (user_task_iter fmt_2f s i).2 = decide (sub32 s.stimes s.rtc_time > 4) ∧
    fired_motion (user_task_iter fmt_2f s i).2 = decide (sub32 s.stimes s.qmi_time > 4) ∧
    fired_battery (user_task_iter fmt_2f s i).2 = decide (sub32 s.stimes s.adc_time > 9) := by
  simp only [user_task_iter, user_rtc_part, user_qmi_part, user_adc_part, fired_clock,
    fired_motion, fired_battery]
  refine ⟨?_, ?_, ?_⟩ <;>
    (split_ifs <;> simp_all)

/-- Tick and marks at the start of iteration `k`. -/
theorem user_run_times (fmt_2f : CFloat → List Char) (env : Nat → SensorIn) (k : Nat) :
    (user_run fmt_2f env k).1.stimes = k % U32 ∧
    (user_run fmt_2f env k).1.rtc_time = last_fire 5 k % U32 ∧
    (user_run fmt_2f env k).1.qmi_time = last_fire 5 k % U32 ∧
    (user_run fmt_2f env k).1.adc_time = last_fire 10 k % U32 := by
  induction k with
  | zero => simp [user_run, user_run_from, UserState.init, last_fire]
  | succ k ih =>
    obtain ⟨h1, h2, h3, h4⟩ := ih
    obtain ⟨e1, e2, e3, e4⟩ := user_iter_times fmt_2f (user_run fmt_2f env k).1 (env k)
    have hrun : (user_run fmt_2f env (k + 1)).1 =
        (user_task_iter fmt_2f (user_run fmt_2f env k).1 (env k)).1 := rfl
    rw [hrun, e1, e2, e3, e4, h1, h2, h3, h4]
    unfold sub32 last_fire U32
    simp only [Nat.add_sub_cancel]
    refine ⟨?_, ?_, ?_, ?_⟩
    · omega
    · split_ifs <;> omega
    · split_ifs <;> omega
    · split_ifs <;> omega

/-- The firing schedule: a source with threshold `t` fires exactly in the
iterations whose number is a positive multiple of `t + 1`. -/
theorem user_run_schedule (fmt_2f : CFloat → List Char) (env : Nat → SensorIn) (k : Nat) :
    (clock_fires (user_run fmt_2f env k).1 = true ↔ (0 < k ∧ k % 5 = 0)) ∧
    (motion_fires (user_run fmt_2f env k).1 = true ↔ (0 < k ∧ k % 5 = 0)) ∧
    (battery_fires (user_run fmt_2f env k).1 = true ↔ (0 < k ∧ k % 10 = 0)) := by
  obtain ⟨h1, h2, h3, h4⟩ := user_run_times fmt_2f env k
  simp only [clock_fires, motion_fires, battery_fires, decide_eq_true_eq, h1, h2, h3, h4]
  unfold sub32 last_fire U32
  refine ⟨?_, ?_, ?_⟩ <;> constructor <;> intro h <;> omega

/-- C4, as stated, fails once the 32-bit tick has wrapped: in iteration
`2 ^ 32 + 4` the tick `stimes` is 4, not a multiple of 5 or 10, and the clock,
motion and battery sources all fire. -/
theorem C4_schedule_counterexample :
    (user_run fmt_2f_sample env_sample (2 ^ 32 + 4)).1.stimes = 4 ∧
    clock_fires (user_run fmt_2f_sample env_sample (2 ^ 32 + 4)).1 = true ∧
    motion_fires (user_run fmt_2f_sample env_sample (2 ^ 32 + 4)).1 = true ∧
    battery_fires (user_run fmt_2f_sample env_sample (2 ^ 32 + 4)).1 = true ∧
    ¬ ((4 : Nat) % 5 = 0) ∧ ¬ ((4 : Nat) % 10 = 0) := by
  obtain ⟨h1, _, _, _⟩ := user_run_times fmt_2f_sample env_sample (2 ^ 32 + 4)
  obtain ⟨s1, s2, s3⟩ := user_run_schedule fmt_2f_sample env_sample (2 ^ 32 + 4)
  refine ⟨?_, s1.2 ⟨by norm_num, by norm_num⟩, s2.2 ⟨by norm_num, by norm_num⟩,
    s3.2 ⟨by norm_num, by norm_num⟩, by decide, by decide⟩
  rw [h1]
  unfold U32
  norm_num

/-- C4, amended: in every iteration of the loop of `example_user_task` a source
with threshold `t` (clock 4, motion 4, battery 9) is sampled exactly when the
unsigned 32-bit difference `stimes - lastFired` exceeds `t`, and firing sets
`lastFired` to `stimes`, each source using only the tick and its own mark.
Started from zero, the tick in iteration `k` is `k mod 2 ^ 32` and the source
fires exactly in the iterations whose number `k` is a positive multiple of
`t + 1`; during the first `2 ^ 32` iterations these are the iterations where
`stimes` is a positive multiple of `t + 1`.  After a firing the source fires
again exactly every `t + 1` iterations, never in between. -/
theorem C4_schedule (fmt_2f : CFloat → List Char) (env : Nat → SensorIn) (s : UserState)
    (i : SensorIn) (k j : Nat) :
    let r := user_task_iter fmt_2f s i
    let st := fun m => (user_run fmt_2f env m).1
    (k < U32 →
      (clock_fires (st k) = true ↔ (0 < (st k).stimes ∧ (st k).stimes % 5 = 0)) ∧
      (motion_fires (st k) = true ↔ (0 < (st k).stimes ∧ (st k).stimes % 5 = 0)) ∧
      (battery_fires (st k) = true ↔ (0 < (st k).stimes ∧ (st k).stimes % 10 = 0))) ∧
    (fired_clock r.2 = decide (sub32 s.stimes s.rtc_time > 4) ∧
      r.1.rtc_time = (if sub32 s.stimes s.rtc_time > 4 then s.stimes else s.rtc_time)) ∧
    (fired_motion r.2 = decide (sub32 s.stimes s.qmi_time > 4) ∧
      r.1.qmi_time = (if sub32 s.stimes s.qmi_time > 4 then s.stimes else s.qmi_time)) ∧
    (fired_battery r.2 = decide (sub32 s.stimes s.adc_time > 9) ∧
      r.1.adc_time = (if sub32 s.stimes s.adc_time > 9 then s.stimes else s.adc_time)) ∧
    r.1.stimes = (s.stimes + 1) % U32 ∧
    (st k).stimes = k % U32 ∧
    (clock_fires (st k) = true ↔ (0 < k ∧ k % 5 = 0)) ∧
    (motion_fires (st k) = true ↔ (0 < k ∧ k % 5 = 0)) ∧
    (battery_fires (st k) = true ↔ (0 < k ∧ k % 10 = 0)) ∧
    (clock_fires (st k) = true → (clock_fires (st (k + j)) = true ↔ j % 5 = 0)) ∧
    (motion_fires (st k) = true → (motion_fires (st (k + j)) = true ↔ j % 5 = 0)) ∧
    (battery_fires (st k) = true → (battery_fires (st (k + j)) = true ↔ j % 10 = 0)) := by
  intro r st
  obtain ⟨t1, t2, t3, t4⟩ := user_iter_times fmt_2f s i
  obtain ⟨f1, f2, f3⟩ := user_iter_fired fmt_2f s i
  obtain ⟨h1, _, _, _⟩ := user_run_times fmt_2f env k
  obtain ⟨s1, s2, s3⟩ := user_run_schedule fmt_2f env k
  obtain ⟨u1, u2, u3⟩ := user_run_schedule fmt_2f env (k + j)
  refine ⟨?_, ⟨f1, t2⟩, ⟨f2, t3⟩, ⟨f3, t4⟩, t1, h1, s1, s2, s3, ?_, ?_, ?_⟩
  · intro hk
    have hst : (st k).stimes = k := by
      simp only [st, h1]
      exact Nat.mod_eq_of_lt hk
    rw [hst]
    exact ⟨s1, s2, s3⟩
  · intro h
    have := s1.1 h
    rw [u1]
    constructor <;> intro _ <;> omega
  · intro h
    have := s2.1 h
    rw [u2]
    constructor <;> intro _ <;> omega
  · intro h
    have := s3.1 h
    rw [u3]
    constructor <;> intro _ <;> omega

/-- C4 (amended) at a concrete input: in iteration 5 the tick is 5 and the clock
source fires. -/
theorem C4_schedule_witness :
    (5 : Nat) < U32 ∧ clock_fires (user_run fmt_2f_sample env_sample 5).1 = true :=
  ⟨by decide,
   ((C4_schedule fmt_2f_sample env_sample UserState.init (env_sample 0) 5 0).1
      (by decide)).1.2 ⟨by decide, by decide⟩⟩

/-! ## The motion display mode -/

theorem motion_texts_append (a b : List Call) :
    motion_texts (a ++ b) = motion_texts a ++ motion_texts b := by
  induction a with
  | nil => rfl
  | cons c a ih =>
    cases c with
    | lv_label_set_text l t => cases l <;> simp [motion_texts, ih]
    | _ => simp [motion_texts, ih]

theorem imu_mode_acc (fmt_2f : CFloat → List Char) (d : ImuDate) :
    imu_mode (acc_text fmt_2f d) = some ImuMode.acc := by
  have hl : acc_head.length = 7 := by decide
  have : acc_head.isPrefixOf (acc_text fmt_2f d) = true := by
    rw [ List.isPrefixOf_iff_prefix]
    unfold acc_text snprintf
    simp only [List.append_assoc]
    rw [List.take_append_eq_append_take, List.take_of_length_le (by rw [hl]; omega)]
    exact List.prefix_append _ _
  simp [imu_mode, this]

theorem imu_mode_gyro (fmt_2f : CFloat → List Char) (d : ImuDate) :
    imu_mode (gyro_text fmt_2f d) = some ImuMode.gyro := by
  have hl : gyro_head.length = 8 := by decide
  have hg : gyro_head = 'g' :: "yro : \n".toList := by decide
  have ha : acc_head = 'a' :: "cc : \n".toList := by decide
  have h1 : gyro_head.isPrefixOf (gyro_text fmt_2f d) = true := by
    rw [ List.isPrefixOf_iff_prefix]
    unfold gyro_text snprintf
    simp only [List.append_assoc]
    rw [List.take_append_eq_append_take, List.take_of_length_le (by rw [hl]; omega)]
    exact List.prefix_append _ _
  have h2 : acc_head.isPrefixOf (gyro_text fmt_2f d) = false := by
    unfold gyro_text snprintf
    simp only [List.append_assoc]
    rw [List.take_append_eq_append_take, List.take_of_length_le (by rw [hl]; omega), hg, ha]
    simp [List.isPrefixOf]
  simp [imu_mode, h1, h2]

/-- Effect of one iteration on the motion display: what is published and how the
flag changes depend on the motion mark and the flag only. -/
theorem user_iter_motion (fmt_2f : CFloat → List Char) (s : UserState) (i : SensorIn) :
    motion_texts (user_task_iter fmt_2f s i).2 =
      (if motion_fires s then
        [if s.imu_flag = 0 then acc_text fmt_2f i.imu else gyro_text fmt_2f i.imu]
       else []) ∧
    (user_task_iter fmt_2f s i).1.imu_flag =
      (if motion_fires s then (if s.imu_flag = 0 then 1 else 0) else s.imu_flag) := by
  simp only [user_task_iter, user_rtc_part, user_qmi_part, user_adc_part, motion_fires]
  constructor <;>
    (split_ifs <;> simp_all [motion_texts] <;> omega)

theorem expected_modes_succ (n : Nat) :
    expected_modes (n + 1) = expected_modes n ++
      [if n % 2 = 0 then some ImuMode.acc else some ImuMode.gyro] := by
  simp [expected_modes, List.range_succ]

/-- Flag and published modes after `k` iterations from any state whose flag is
clear. -/
theorem user_run_from_modes (fmt_2f : CFloat → List Char) (s0 : UserState)
    (env : Nat → SensorIn) (h0 : s0.imu_flag = 0) (k : Nat) :
    (user_run_from fmt_2f s0 env k).1.imu_flag =
      (motion_texts (user_run_from fmt_2f s0 env k).2).length % 2 ∧
    (motion_texts (user_run_from fmt_2f s0 env k).2).map imu_mode =
      expected_modes (motion_texts (user_run_from fmt_2f s0 env k).2).length := by
  induction k with
  | zero => simp [user_run_from, motion_texts, h0, expected_modes]
  | succ k ih =>
    obtain ⟨ih1, ih2⟩ := ih
    obtain ⟨m1, m2⟩ := user_iter_motion fmt_2f (user_run_from fmt_2f s0 env k).1 (env k)
    have hrun : user_run_from fmt_2f s0 env (k + 1) =
        ((user_task_iter fmt_2f (user_run_from fmt_2f s0 env k).1 (env k)).1,
         (user_run_from fmt_2f s0 env k).2 ++
           (user_task_iter fmt_2f (user_run_from fmt_2f s0 env k).1 (env k)).2) := rfl
    rw [hrun]
    simp only [motion_texts_append, m1, m2, List.map_append, List.length_append, ih2]
    cases hf : motion_fires (user_run_from fmt_2f s0 env k).1
    · simp [ih1]
    · simp only [if_true, List.length_singleton, List.map_cons, List.map_nil,
        expected_modes_succ]
      rw [ih1]
      by_cases hp : (motion_texts (user_run_from fmt_2f s0 env k).2).length % 2 = 0
      · simp only [hp, if_true, imu_mode_acc]
        constructor
        · omega
        · trivial
      · simp only [hp, if_false, imu_mode_gyro]
        constructor
        · omega
        · trivial

/-- Number of motion firings during the first `k` iterations. -/
theorem user_run_motion_count (fmt_2f : CFloat → List Char) (env : Nat → SensorIn) (k : Nat) :
    (motion_texts (user_run fmt_2f env k).2).length = (k - 1) / 5 := by
  induction k with
  | zero => simp [user_run, user_run_from, motion_texts]
  | succ k ih =>
    have m1 := (user_iter_motion fmt_2f (user_run fmt_2f env k).1 (env k)).1
    have hs := (user_run_schedule fmt_2f env k).2.1
    have hrun : (user_run fmt_2f env (k + 1)).2 =
        (user_run fmt_2f env k).2 ++
          (user_task_iter fmt_2f (user_run fmt_2f env k).1 (env k)).2 := rfl
    rw [hrun, motion_texts_append, List.length_append, ih, m1]
    cases hf : motion_fires (user_run fmt_2f env k).1
    · have : ¬ (0 < k ∧ k % 5 = 0) := fun h => by
        rw [hs.2 h] at hf; exact Bool.noConfusion hf
      simp only [Bool.false_eq_true, if_false, List.length_nil]
      omega
    · have := hs.1 hf
      simp only [if_true, List.length_singleton]
      omega

/-- The texts published by the motion source during the first `k` iterations. -/
theorem user_run_motion_texts (fmt_2f : CFloat → List Char) (env : Nat → SensorIn) (k : Nat) :
    motion_texts (user_run fmt_2f env k).2 =
      (List.range ((k - 1) / 5)).map (expected_motion_text fmt_2f env) := by
  induction k with
  | zero => simp [user_run, user_run_from, motion_texts]
  | succ k ih =>
    have m1 := (user_iter_motion fmt_2f (user_run fmt_2f env k).1 (env k)).1
    have hs := (user_run_schedule fmt_2f env k).2.1
    have hflag : (user_run fmt_2f env k).1.imu_flag = (k - 1) / 5 % 2 := by
      rw [← user_run_motion_count fmt_2f env k]
      exact (user_run_from_modes fmt_2f UserState.init env rfl k).1
    have hrun : (user_run fmt_2f env (k + 1)).2 =
        (user_run fmt_2f env k).2 ++
          (user_task_iter fmt_2f (user_run fmt_2f env k).1 (env k)).2 := rfl
    rw [hrun, motion_texts_append, ih, m1, hflag]
    cases hf : motion_fires (user_run fmt_2f env k).1
    · have hno : ¬ (0 < k ∧ k % 5 = 0) := fun h => by
        rw [hs.2 h] at hf; exact Bool.noConfusion hf
      have e : (k + 1 - 1) / 5 = (k - 1) / 5 := by omega
      simp only [Bool.false_eq_true, if_false, List.append_nil, e]
    · have hyes := hs.1 hf
      have e : (k + 1 - 1) / 5 = (k - 1) / 5 + 1 := by omega
      have ek : 5 * ((k - 1) / 5 + 1) = k := by omega
      simp only [if_true, e, List.range_succ, List.map_append, List.map_cons, List.map_nil,
        expected_motion_text, ek]

/-- C9: in `example_user_task` the motion source alternates its display mode by
the flag `imu_flag`.  The accelerometer text is the 49-character cut of
`acc : \n<accx>g \n<accy>g \n<accz>g`, the gyroscope text that of
`gyro : \n<gyrox>dps \n<gyroy>dps \n<gyroz>dps`, each value in the `%.2f`
rendering.  Over the whole run the text published at firing number `j + 1`
(iteration `5 * (j + 1)`) is the accelerometer text of the sample read then when
`j + 1` is odd and the gyroscope text when it is even; the same alternation of
modes holds when the loop is started at any tick value and any marks; in one
iteration what is published and how the flag changes depend only on whether the
motion source fires and on the flag, not on the clock or battery blocks. -/
theorem C9_motion_alternates (fmt_2f : CFloat → List Char) (env : Nat → SensorIn)
    (start s : UserState) (i : SensorIn) (k j : Nat) :
    let r := user_task_iter fmt_2f s i
    let run := user_run fmt_2f env k
    let jit := user_run_from fmt_2f { start with imu_flag := 0 } env k
    (motion_texts run.2).map imu_mode = expected_modes ((k - 1) / 5) ∧
    (motion_texts run.2).length = (k - 1) / 5 ∧
    run.1.imu_flag = (motion_texts run.2).length % 2 ∧
    (motion_texts jit.2).map imu_mode = expected_modes (motion_texts jit.2).length ∧
    jit.1.imu_flag = (motion_texts jit.2).length % 2 ∧
    motion_texts r.2 =
      (if motion_fires s then
        [if s.imu_flag = 0 then acc_text fmt_2f i.imu else gyro_text fmt_2f i.imu]
       else []) ∧
    r.1.imu_flag = (if motion_fires s then (if s.imu_flag = 0 then 1 else 0) else s.imu_flag) ∧
    imu_mode (acc_text fmt_2f i.imu) = some ImuMode.acc ∧
    imu_mode (gyro_text fmt_2f i.imu) = some ImuMode.gyro ∧
    acc_text fmt_2f i.imu =
      List.take 49 ("acc : \n".toList ++ fmt_2f i.imu.accx ++ "g \n".toList
        ++ fmt_2f i.imu.accy ++ "g \n".toList ++ fmt_2f i.imu.accz ++ "g".toList) ∧
    gyro_text fmt_2f i.imu =
      List.take 49 ("gyro : \n".toList ++ fmt_2f i.imu.gyrox ++ "dps \n".toList
        ++ fmt_2f i.imu.gyroy ++ "dps \n".toList ++ fmt_2f i.imu.gyroz ++ "dps".toList) ∧
    motion_texts run.2 =
      (List.range ((k - 1) / 5)).map (fun m =>
        if m % 2 = 0 then acc_text fmt_2f (env (5 * (m + 1))).imu
        else gyro_text fmt_2f (env (5 * (m + 1))).imu) ∧
    (motion_texts (user_run fmt_2f env (5 * (j + 1) + 1)).2)[j]? =
      some (if j % 2 = 0 then acc_text fmt_2f (env (5 * (j + 1))).imu
            else gyro_text fmt_2f (env (5 * (j + 1))).imu) := by
  intro r run jit
  obtain ⟨a1, a2⟩ := user_run_from_modes fmt_2f UserState.init env rfl k
  obtain ⟨b1, b2⟩ := user_run_from_modes fmt_2f { start with imu_flag := 0 } env rfl k
  obtain ⟨m1, m2⟩ := user_iter_motion fmt_2f s i
  have hc := user_run_motion_count fmt_2f env k
  have ht := user_run_motion_texts fmt_2f env k
  have htj := user_run_motion_texts fmt_2f env (5 * (j + 1) + 1)
  refine ⟨?_, hc, a1, b2, b1, m1, m2, imu_mode_acc fmt_2f i.imu, imu_mode_gyro fmt_2f i.imu,
    rfl, rfl, ht, ?_⟩
  · have : (motion_texts run.2).map imu_mode = expected_modes (motion_texts run.2).length := a2
    rw [this, hc]
  · have e : (5 * (j + 1) + 1 - 1) / 5 = j + 1 := by omega
    rw [htj, e, List.getElem?_map, List.getElem?_range (Nat.lt_succ_self j)]
    rfl

end UserApp
